import Mathlib

/-
  Verification development for the EasySwap NFT-marketplace
  order-synchronization service.

  The definitions below are a shallow embedding of the Go sources:
  * `EasySwapSync/service/orderbookindexer/service.go`
    (the chain event ingester: `SyncOrderBookEventLoop`,
    `handleMakeEvent`, `handleCancelEvent`, `handleMatchEvent`), and
  * the `ordermanager` timer wheel, whose code is not part of this
    snapshot and is therefore modelled from the specification (§4.3).

  Database tables are modelled as lists of rows; GORM operations become
  pure list transformations:
  * `UPDATE ... WHERE order_id = ?`  -> map over rows, rewriting matches;
  * `First(...)`                      -> `List.find?` (None = ErrRecordNotFound,
                                         which makes the Go handler return early);
  * `Create` with `ON CONFLICT DO NOTHING` -> insert-or-ignore.
  Machine integers: Go `uint64` arithmetic in the sync loop is modelled
  on `Nat` with explicit `% 2^64`; `int64` conversions of `uint64`
  values use `int64OfUInt64`.  Loads from the RPC (head block number,
  logs, block timestamps) and the wall clock are oracle inputs.
-/

namespace EasySwap

/-- Go const `FixForCollection = 0` (collection offer sale kind). -/
def FixForCollection : Nat := 0

/-- Go const `FixForItem = 1` (single-item offer sale kind). -/
def FixForItem : Nat := 1

/-- Go const `List = 0` (a maker listing); renamed to avoid clashing with `List`. -/
def ListSide : Nat := 0

/-- Go const `Bid = 1` (a buy offer). -/
def BidSide : Nat := 1

/-- Go const `ZeroAddress`. -/
def ZeroAddress : String := "0x0000000000000000000000000000000000000000"

/-- Go const `SleepInterval = 10` (seconds slept on error / no new blocks). -/
def SleepInterval : Nat := 10

/-- Go const `SyncBlockPeriod = 10` (block batch size per iteration). -/
def SyncBlockPeriod : Nat := 10

/-- `2^64`, the modulus of Go's `uint64` arithmetic. -/
def U64 : Nat := 2 ^ 64

/-- Go's `int64(x)` conversion applied to a `uint64` value. -/
def int64OfUInt64 (n : Nat) : Int :=
  if n % U64 < 2 ^ 63 then ((n % U64 : Nat) : Int) else ((n % U64 : Nat) : Int) - (U64 : Int)

/-- Go map `MultiChainMaxBlockDifference` (per-chain confirm depth);
a missing key yields Go's zero value `0`. -/
def MultiChainMaxBlockDifference (chain : String) : Nat :=
  if chain = "eth" then 1
  else if chain = "optimism" then 2
  else if chain = "starknet" then 1
  else if chain = "arbitrum" then 2
  else if chain = "base" then 2
  else if chain = "zksync-era" then 2
  else 0

/-- `multi.OrderStatus*` constants, as an enumeration (the numeric values
live in the shared model package and are only ever compared). -/
inductive OrderStatus where
  | active
  | filled
  | cancelled
  | expired
deriving DecidableEq, Repr

/-- `multi.ListingOrder` / `multi.CollectionBidOrder` / `multi.ItemBidOrder`. -/
inductive OrderType where
  | listing
  | collectionBid
  | itemBid
deriving DecidableEq, Repr

/-- `multi.Listing`, `multi.CollectionBid`, `multi.ItemBid`, `multi.Sale`,
`multi.CancelListing`, `multi.CancelCollectionBid`, `multi.CancelItemBid`. -/
inductive ActivityType where
  | listing
  | collectionBid
  | itemBid
  | sale
  | cancelListing
  | cancelCollectionBid
  | cancelItemBid
deriving DecidableEq, Repr

/-- `multi.MarketOrderBook` marketplace id (an opaque constant). -/
def MarketOrderBook : Nat := 1

/-- A row of the `order_list` table (`multi.Order`). -/
structure OrderRow where
  orderId : String
  collectionAddress : String
  tokenId : String
  maker : String
  taker : String
  currencyAddress : String
  marketplaceId : Nat
  orderStatus : OrderStatus
  orderType : OrderType
  price : Int
  quantityRemaining : Int
  size : Int
  expireTime : Int
  eventTime : Int
  salt : Int
deriving DecidableEq, Repr

/-- A row of the `nft_items` table (`multi.Item`), trimmed to the fields
the ingester touches. -/
structure ItemRow where
  collectionAddress : String
  tokenId : String
  owner : String
deriving DecidableEq, Repr

/-- A row of the `activity_list` table (`multi.Activity`). -/
structure ActivityRow where
  activityType : ActivityType
  maker : String
  taker : String
  marketplaceId : Nat
  collectionAddress : String
  tokenId : String
  currencyAddress : String
  price : Int
  blockNumber : Int
  txHash : String
  eventTime : Int
deriving DecidableEq, Repr

/-- The relational store, restricted to the tables the ingester writes. -/
structure DB where
  orders : List OrderRow
  items : List ItemRow
  activities : List ActivityRow
deriving DecidableEq, Repr

/-- `UPDATE order_list SET ... WHERE order_id = ?`: rewrite every row whose
`order_id` matches (a no-op on zero matched rows, which GORM does not
treat as an error). -/
def updateOrdersWhere (orders : List OrderRow) (oid : String) (f : OrderRow → OrderRow) :
    List OrderRow :=
  orders.map fun o => if o.orderId = oid then f o else o

/-- `SELECT ... WHERE order_id = ? LIMIT 1` (`First`); `none` models
`gorm.ErrRecordNotFound`. -/
def findOrder (orders : List OrderRow) (oid : String) : Option OrderRow :=
  orders.find? fun o => o.orderId = oid

/-- `Create` with `clause.OnConflict{DoNothing: true}` on the orders table:
the insert is dropped when a row with the same `order_id` exists. -/
def insertOrderOrIgnore (orders : List OrderRow) (row : OrderRow) : List OrderRow :=
  if orders.any (fun o => o.orderId = row.orderId) then orders else orders ++ [row]

/-- `Create` with `clause.OnConflict{DoNothing: true}` on the activity table:
the activity unique key covers every field the handler populates, so a
duplicate of an already-present row is dropped. -/
def insertActivityOrIgnore (acts : List ActivityRow) (row : ActivityRow) : List ActivityRow :=
  if row ∈ acts then acts else acts ++ [row]

/-- `UPDATE nft_items SET owner = ? WHERE collection_address = ? AND token_id = ?`. -/
def updateItemsOwner (items : List ItemRow) (coll tokenId owner : String) : List ItemRow :=
  items.map fun it =>
    if it.collectionAddress = coll ∧ it.tokenId = tokenId then { it with owner := owner } else it

/-- The contract configuration the handlers read (`cfg.ContractCfg`). -/
structure Config where
  ethAddress : String
  dexAddress : String
deriving DecidableEq, Repr

/-- The `ordermanager.TradeEvent` event-type tags used by the ingester. -/
inductive TradeEventType where
  | listing
  | buy
  | cancel
  | expired
  | updateCollection
deriving DecidableEq, Repr

/-- `ordermanager.TradeEvent` (published onto the trade-event queue). -/
structure TradeEvent where
  orderId : String
  collectionAddr : String
  eventType : TradeEventType
  tokenId : String
  fromAddr : String
  toAddr : String
deriving DecidableEq, Repr

/-- The order projection pushed onto the order-manager (listings) queue by
`handleMakeEvent` step 8. -/
structure QueuedOrder where
  expireTime : Int
  orderId : String
  collectionAddress : String
  tokenId : String
  price : Int
  maker : String
deriving DecidableEq, Repr

/-- Oracle inputs a handler consumes: the wall clock (`time.Now().Unix()`)
and the RPC block-time lookup (`BlockTimeByNumber`; `none` = RPC error). -/
structure Env where
  now : Int
  blockTimeOf : Nat → Option Nat

/-- A handler's observable result: the database afterwards, the orders
pushed to the listings queue, and the trade events published. -/
structure Effects where
  db : DB
  queued : List QueuedOrder
  published : List TradeEvent
deriving DecidableEq, Repr

/-- The decoded `LogMake` payload (`event` struct plus the indexed topics
`side`, `saleKind`, `maker` and log metadata).  String fields carry the
`.String()` renderings the Go handler produces. -/
structure MakeEvent where
  orderKey : String
  side : Nat
  saleKind : Nat
  maker : String
  nftTokenId : String
  nftCollection : String
  nftAmount : Int
  price : Int
  expiry : Nat
  salt : Nat
  blockNumber : Nat
  txHash : String
deriving DecidableEq, Repr

/-- The `Order` tuple inside a decoded `LogMatch` payload. -/
structure ChainOrder where
  side : Nat
  saleKind : Nat
  maker : String
  nftTokenId : String
  nftCollection : String
  nftAmount : Int
  price : Int
  expiry : Nat
  salt : Nat
deriving DecidableEq, Repr

/-- The decoded `LogMatch` payload plus the two order ids taken from the
indexed topics and log metadata. -/
structure MatchEvent where
  makeOrder : ChainOrder
  takeOrder : ChainOrder
  fillPrice : Int
  makeOrderId : String
  takeOrderId : String
  blockNumber : Nat
  txHash : String
deriving DecidableEq, Repr

/-- The decoded `LogCancel` payload (order id from topic 1, log metadata). -/
structure CancelEvent where
  orderId : String
  blockNumber : Nat
  txHash : String
deriving DecidableEq, Repr

/-- `handleMakeEvent` step 3: classify the order type from the indexed
`side` / `saleKind` topics. -/
def makeOrderType (side saleKind : Nat) : OrderType :=
  if side = BidSide then
    if saleKind = FixForCollection then OrderType.collectionBid else OrderType.itemBid
  else OrderType.listing

/-- `handleMakeEvent` step 6: classify the activity type (same branch
structure as the order type). -/
def makeActivityType (side saleKind : Nat) : ActivityType :=
  if side = BidSide then
    if saleKind = FixForCollection then ActivityType.collectionBid else ActivityType.itemBid
  else ActivityType.listing

/-- The `newOrder` literal built by `handleMakeEvent` step 4. -/
def makeOrderRow (cfg : Config) (env : Env) (ev : MakeEvent) : OrderRow :=
  { collectionAddress := ev.nftCollection
    marketplaceId := MarketOrderBook
    tokenId := ev.nftTokenId
    orderId := ev.orderKey
    orderStatus := OrderStatus.active
    eventTime := env.now
    expireTime := int64OfUInt64 ev.expiry
    currencyAddress := cfg.ethAddress
    price := ev.price
    maker := ev.maker
    taker := ZeroAddress
    quantityRemaining := ev.nftAmount
    size := ev.nftAmount
    orderType := makeOrderType ev.side ev.saleKind
    salt := int64OfUInt64 ev.salt }

/-- The `newActivity` literal built by `handleMakeEvent` step 7
(`blockTime` is the block timestamp fetched from the RPC). -/
def makeActivityRow (cfg : Config) (ev : MakeEvent) (blockTime : Nat) : ActivityRow :=
  { activityType := makeActivityType ev.side ev.saleKind
    maker := ev.maker
    taker := ZeroAddress
    marketplaceId := MarketOrderBook
    collectionAddress := ev.nftCollection
    tokenId := ev.nftTokenId
    currencyAddress := cfg.ethAddress
    price := ev.price
    blockNumber := int64OfUInt64 ev.blockNumber
    txHash := ev.txHash
    eventTime := int64OfUInt64 blockTime }

/-- `handleMakeEvent`: insert the order (insert-or-ignore on `order_id`),
fetch the block time (an RPC failure returns early), append the activity
(insert-or-ignore), and enqueue the order onto the order-manager queue. -/
def handleMakeEvent (cfg : Config) (env : Env) (db : DB) (ev : MakeEvent) : Effects :=
  let newOrder := makeOrderRow cfg env ev
  let db1 : DB := { db with orders := insertOrderOrIgnore db.orders newOrder }
  match env.blockTimeOf ev.blockNumber with
  | none => ⟨db1, [], []⟩
  | some blockTime =>
    let db2 : DB :=
      { db1 with activities := insertActivityOrIgnore db1.activities (makeActivityRow cfg ev blockTime) }
    ⟨db2,
     [{ expireTime := newOrder.expireTime
        orderId := newOrder.orderId
        collectionAddress := newOrder.collectionAddress
        tokenId := newOrder.tokenId
        price := newOrder.price
        maker := newOrder.maker }],
     []⟩

example :
    (handleMakeEvent ⟨"0xeth", "0xdex"⟩ ⟨5, fun _ => some 9⟩ ⟨[], [], []⟩
      ⟨"0xk1", 0, 1, "0xMak", "7", "0xColl", 1, 100, 500, 3, 42, "0xtx"⟩).db.orders.length = 1 := by
  decide

/-- The `newActivity` (Sale) literal built by `handleMatchEvent` step 5. -/
def matchActivityRow (cfg : Config) (ev : MatchEvent) (collection tokenId : String)
    (blockTime : Nat) : ActivityRow :=
  { activityType := ActivityType.sale
    maker := ev.makeOrder.maker
    taker := ev.takeOrder.maker
    marketplaceId := MarketOrderBook
    collectionAddress := collection
    tokenId := tokenId
    currencyAddress := cfg.ethAddress
    price := ev.fillPrice
    blockNumber := int64OfUInt64 ev.blockNumber
    txHash := ev.txHash
    eventTime := int64OfUInt64 blockTime }

/-- Steps 4–7 of `handleMatchEvent`, shared by both branches: fetch the
block time (an RPC failure returns early), append the Sale activity,
rewrite the item owner, and publish the `Buy` trade event. -/
def matchTail (cfg : Config) (env : Env) (db : DB) (ev : MatchEvent)
    (owner collection tokenId fromAddr toAddr sellOrderId : String) : Effects :=
  match env.blockTimeOf ev.blockNumber with
  | none => ⟨db, [], []⟩
  | some blockTime =>
    let db3 : DB :=
      { db with activities :=
          insertActivityOrIgnore db.activities (matchActivityRow cfg ev collection tokenId blockTime) }
    let db4 : DB :=
      { db3 with items := updateItemsOwner db3.items collection.toLower tokenId owner }
    ⟨db4, [],
     [{ orderId := sellOrderId
        collectionAddr := collection
        eventType := TradeEventType.buy
        tokenId := tokenId
        fromAddr := fromAddr
        toAddr := toAddr }]⟩

/-- `handleMatchEvent`: branch on the make order's side to identify the
sell side; set the sell order to Filled with `quantity_remaining = 0`
and `taker` = buyer; load the buy order (a missing row aborts the
event); decrement its `quantity_remaining` or fill it; then run the
shared tail (activity, item owner, trade event). -/
def handleMatchEvent (cfg : Config) (env : Env) (db : DB) (ev : MatchEvent) : Effects :=
  if ev.makeOrder.side = BidSide then
    -- the make order is a bid: the take order is the listing being sold
    let owner := (ev.makeOrder.maker).toLower
    let collection := ev.takeOrder.nftCollection
    let tokenId := ev.takeOrder.nftTokenId
    let fromAddr := ev.takeOrder.maker
    let toAddr := ev.makeOrder.maker
    let db1 : DB :=
      { db with orders := updateOrdersWhere db.orders ev.takeOrderId fun o =>
          { o with orderStatus := OrderStatus.filled, quantityRemaining := 0, taker := toAddr } }
    match findOrder db1.orders ev.makeOrderId with
    | none => ⟨db1, [], []⟩
    | some buyOrder =>
      let db2 : DB :=
        if buyOrder.quantityRemaining > 1 then
          { db1 with orders := updateOrdersWhere db1.orders ev.makeOrderId fun o =>
              { o with quantityRemaining := buyOrder.quantityRemaining - 1 } }
        else
          { db1 with orders := updateOrdersWhere db1.orders ev.makeOrderId fun o =>
              { o with orderStatus := OrderStatus.filled, quantityRemaining := 0 } }
      matchTail cfg env db2 ev owner collection tokenId fromAddr toAddr ev.takeOrderId
  else
    -- the make order is the listing: the take order is the buy side
    let owner := (ev.takeOrder.maker).toLower
    let collection := ev.makeOrder.nftCollection
    let tokenId := ev.makeOrder.nftTokenId
    let fromAddr := ev.makeOrder.maker
    let toAddr := ev.takeOrder.maker
    let db1 : DB :=
      { db with orders := updateOrdersWhere db.orders ev.makeOrderId fun o =>
          { o with orderStatus := OrderStatus.filled, quantityRemaining := 0, taker := toAddr } }
    match findOrder db1.orders ev.takeOrderId with
    | none => ⟨db1, [], []⟩
    | some buyOrder =>
      let db2 : DB :=
        if buyOrder.quantityRemaining > 1 then
          { db1 with orders := updateOrdersWhere db1.orders ev.takeOrderId fun o =>
              { o with quantityRemaining := buyOrder.quantityRemaining - 1 } }
        else
          { db1 with orders := updateOrdersWhere db1.orders ev.takeOrderId fun o =>
              { o with orderStatus := OrderStatus.filled, quantityRemaining := 0 } }
      matchTail cfg env db2 ev owner collection tokenId fromAddr toAddr ev.makeOrderId

/-- `handleCancelEvent` step 4: classify the cancel activity from the
cancelled order's type. -/
def cancelActivityType (t : OrderType) : ActivityType :=
  if t = OrderType.listing then ActivityType.cancelListing
  else if t = OrderType.collectionBid then ActivityType.cancelCollectionBid
  else ActivityType.cancelItemBid

/-- The `newActivity` literal built by `handleCancelEvent` step 5 from the
re-loaded order row. -/
def cancelActivityRow (cfg : Config) (ev : CancelEvent) (cancelOrder : OrderRow)
    (blockTime : Nat) : ActivityRow :=
  { activityType := cancelActivityType cancelOrder.orderType
    maker := cancelOrder.maker
    taker := ZeroAddress
    marketplaceId := MarketOrderBook
    collectionAddress := cancelOrder.collectionAddress
    tokenId := cancelOrder.tokenId
    currencyAddress := cfg.ethAddress
    price := cancelOrder.price
    blockNumber := int64OfUInt64 ev.blockNumber
    txHash := ev.txHash
    eventTime := int64OfUInt64 blockTime }

/-- `handleCancelEvent`: unconditionally set the order's status to
Cancelled, re-load the row (a missing row aborts), fetch the block time,
append the cancel activity, and publish a `Cancel` trade event. -/
def handleCancelEvent (cfg : Config) (env : Env) (db : DB) (ev : CancelEvent) : Effects :=
  let db1 : DB :=
    { db with orders := updateOrdersWhere db.orders ev.orderId fun o =>
        { o with orderStatus := OrderStatus.cancelled } }
  match findOrder db1.orders ev.orderId with
  | none => ⟨db1, [], []⟩
  | some cancelOrder =>
    match env.blockTimeOf ev.blockNumber with
    | none => ⟨db1, [], []⟩
    | some blockTime =>
      let db2 : DB :=
        { db1 with activities :=
            insertActivityOrIgnore db1.activities (cancelActivityRow cfg ev cancelOrder blockTime) }
      ⟨db2, [],
       [{ orderId := cancelOrder.orderId
          collectionAddr := cancelOrder.collectionAddress
          eventType := TradeEventType.cancel
          tokenId := cancelOrder.tokenId
          fromAddr := ""
          toAddr := "" }]⟩

/-- A log delivered by `FilterLogs`, already dispatched by its topic 0
(events with an unknown topic fall into `other` and are skipped). -/
inductive LogEvent where
  | make (ev : MakeEvent)
  | cancel (ev : CancelEvent)
  | matched (ev : MatchEvent)
  | other
deriving Repr

/-- The topic dispatch inside `SyncOrderBookEventLoop` step 7 applied to a
single log (only the database is threaded on; queue pushes go to Redis). -/
def processLog (cfg : Config) (env : Env) (db : DB) (lg : LogEvent) : DB :=
  match lg with
  | LogEvent.make ev => (handleMakeEvent cfg env db ev).db
  | LogEvent.cancel ev => (handleCancelEvent cfg env db ev).db
  | LogEvent.matched ev => (handleMatchEvent cfg env db ev).db
  | LogEvent.other => db

/-- The log loop of `SyncOrderBookEventLoop` step 7 over a full batch. -/
def processLogs (cfg : Config) (env : Env) (db : DB) : List LogEvent → DB
  | [] => db
  | lg :: rest => processLogs cfg env (processLog cfg env db lg) rest

/-- The external responses one iteration of `SyncOrderBookEventLoop`
consumes: `BlockNumber()` (`none` = RPC error), `FilterLogs` (`none` =
RPC error), the handlers' oracle inputs, and whether the
`last_indexed_block` UPDATE succeeds. -/
structure SyncEnv where
  head : Option Nat
  logs : Option (List LogEvent)
  handlerEnv : Env
  persistOk : Bool

/-- The observable result of one iteration of the sync loop body:
the log range requested from the RPC (if any), the database afterwards,
the in-memory cursor (`lastSyncBlock`), whether the loop `return`ed,
and the cursor value written to `indexed_status` (if the write ran and
succeeded). -/
structure SyncStep where
  queried : Option (Nat × Nat)
  db : DB
  cursor : Nat
  exited : Bool
  persisted : Option Nat
deriving Repr

/-- One iteration of the `for` loop in `SyncOrderBookEventLoop`:
read the head (RPC error ⇒ sleep and retry), compare the cursor against
`head − confirmDepth` in `uint64` arithmetic (no new safe blocks ⇒ sleep
and retry), clamp `endBlock = min(head − depth, cursor + 10)`, fetch the
log range `[cursor, endBlock]` (RPC error ⇒ sleep and retry), process
every log, set the in-memory cursor to `endBlock + 1`, and persist it
(a failed UPDATE makes the loop `return`). -/
def syncIteration (cfg : Config) (chain : String) (env : SyncEnv) (db : DB)
    (lastSync : Nat) : SyncStep :=
  match env.head with
  | none => ⟨none, db, lastSync, false, none⟩
  | some currentBlockNum =>
    let safe := (currentBlockNum + (U64 - MultiChainMaxBlockDifference chain)) % U64
    if safe < lastSync then ⟨none, db, lastSync, false, none⟩
    else
      let startBlock := lastSync
      let endBlock0 := (startBlock + SyncBlockPeriod) % U64
      let endBlock := if safe < endBlock0 then safe else endBlock0
      match env.logs with
      | none => ⟨some (startBlock, endBlock), db, lastSync, false, none⟩
      | some logs =>
        let db2 := processLogs cfg env.handlerEnv db logs
        let newCursor := (endBlock + 1) % U64
        if env.persistOk then
          ⟨some (startBlock, endBlock), db2, newCursor, false, some newCursor⟩
        else
          ⟨some (startBlock, endBlock), db2, newCursor, true, none⟩

/-- The sync loop run against a finite schedule of per-iteration external
responses, returning the steps taken; a failed cursor persist ends the
run (the Go loop `return`s). -/
def runSync (cfg : Config) (chain : String) (db : DB) (cursor : Nat) :
    List SyncEnv → List SyncStep
  | [] => []
  | env :: rest =>
    let st := syncIteration cfg chain env db cursor
    if st.exited then [st] else st :: runSync cfg chain st.db st.cursor rest

/-- Modelled from the spec: `WHEEL_SIZE = 3600`, the slot count of the
order-expiry timer wheel (§4.3); the wheel code (`ordermanager`) is not
part of this source snapshot. -/
def WheelSize : Nat := 3600

/-- Modelled from the spec: an `ExpiryNode` of the timer wheel
(`{order_id, collection, token_id, maker, expire_time, cycle_count,
slot_index}`); the slot linked lists are Lean lists. -/
structure WheelNode where
  orderId : String
  collection : String
  tokenId : String
  maker : String
  expireTime : Nat
  cycleCount : Nat
  slotIndex : Nat
deriving DecidableEq, Repr

/-- Modelled from the spec: the wheel state — a ring of slot lists, the
shared `current_index`, and the wall clock in whole seconds (`TICK = 1 s`,
so the clock advances by one per tick). -/
structure Wheel where
  slots : Nat → List WheelNode
  currentIndex : Nat
  now : Nat

/-- A wheel whose every slot is empty. -/
def emptyWheel (ci now : Nat) : Wheel := ⟨fun _ => [], ci, now⟩

/-- Modelled from the spec: `Insert(order, expire_time)` —
`delta = max(0, expire_time − now)` (Nat subtraction),
`cycle_count = delta / WHEEL_SIZE`,
`slot = (current_index + (delta mod WHEEL_SIZE)) mod WHEEL_SIZE`,
prepend the node onto the slot's list. -/
def insertWheel (w : Wheel) (orderId collection tokenId maker : String)
    (expireTime : Nat) : Wheel :=
  let delta := expireTime - w.now
  let cycleCount := delta / WheelSize
  let slot := (w.currentIndex + delta % WheelSize) % WheelSize
  let node : WheelNode := ⟨orderId, collection, tokenId, maker, expireTime, cycleCount, slot⟩
  { w with slots := fun i => if i = slot then node :: w.slots i else w.slots i }

/-- Modelled from the spec: the nodes the next tick fires — those in the
current slot whose `cycle_count` is `0` (they are unlinked, the order is
set to Expired in the DB and an `{Expired}` trade event is published). -/
def tickFired (w : Wheel) : List WheelNode :=
  (w.slots w.currentIndex).filter fun n => n.cycleCount == 0

/-- Modelled from the spec: one tick — walk the current slot, unlink the
nodes with `cycle_count = 0`, decrement the others in place, then
advance `current_index` by one (mod `WHEEL_SIZE`); the clock moves one
second per tick. -/
def tickWheel (w : Wheel) : Wheel :=
  let survivors :=
    ((w.slots w.currentIndex).filter fun n => n.cycleCount != 0).map
      fun n => { n with cycleCount := n.cycleCount - 1 }
  { slots := fun i => if i = w.currentIndex then survivors else w.slots i
    currentIndex := (w.currentIndex + 1) % WheelSize
    now := w.now + 1 }

/-- Iterated ticks. -/
def runTicks (w : Wheel) : Nat → Wheel
  | 0 => w
  | k + 1 => runTicks (tickWheel w) k

/-- The id of the sell-side order of a Match event, as the handler
identifies it: the take order when the make order is a bid, otherwise
the make order (`sellOrderId` in both branches). -/
def matchSellOrderId (ev : MatchEvent) : String :=
  if ev.makeOrder.side = BidSide then ev.takeOrderId else ev.makeOrderId

/-- The id of the buy-side order of a Match event (the counterparty of
the sell side). -/
def matchBuyOrderId (ev : MatchEvent) : String :=
  if ev.makeOrder.side = BidSide then ev.makeOrderId else ev.takeOrderId

/-- The buyer (`to` in both branches of the handler). -/
def matchBuyer (ev : MatchEvent) : String :=
  if ev.makeOrder.side = BidSide then ev.makeOrder.maker else ev.takeOrder.maker

/-- The seller (`from` in both branches of the handler). -/
def matchSeller (ev : MatchEvent) : String :=
  if ev.makeOrder.side = BidSide then ev.takeOrder.maker else ev.makeOrder.maker

/-- The collection address the handler takes from the listing side. -/
def matchCollection (ev : MatchEvent) : String :=
  if ev.makeOrder.side = BidSide then ev.takeOrder.nftCollection else ev.makeOrder.nftCollection

/-- The token id the handler takes from the listing side. -/
def matchTokenId (ev : MatchEvent) : String :=
  if ev.makeOrder.side = BidSide then ev.takeOrder.nftTokenId else ev.makeOrder.nftTokenId

/-- The rewrite the handler applies to the sell order's row. -/
def matchSellUpdate (ev : MatchEvent) (o : OrderRow) : OrderRow :=
  { o with orderStatus := OrderStatus.filled, quantityRemaining := 0, taker := matchBuyer ev }

/-- The rewrite the handler applies to the buy order's row, given the
loaded row `b`: decrement when more than one unit remains, else fill. -/
def matchBuyUpdate (b : OrderRow) (o : OrderRow) : OrderRow :=
  if b.quantityRemaining > 1 then { o with quantityRemaining := b.quantityRemaining - 1 }
  else { o with orderStatus := OrderStatus.filled, quantityRemaining := 0 }

/-- Well-formedness of one iteration's external responses: a reported
head is at least the confirm depth and small enough that no `uint64`
arithmetic in the loop wraps. -/
def goodEnv (chain : String) (e : SyncEnv) : Bool :=
  match e.head with
  | none => true
  | some h => decide (MultiChainMaxBlockDifference chain ≤ h) && decide (h + 12 ≤ U64)

/-! ### Basic lemmas about the database operations -/

theorem updateOrdersWhere_comp (l : List OrderRow) (oid : String)
    (f g : OrderRow → OrderRow) (hf : ∀ o, (f o).orderId = o.orderId) :
    updateOrdersWhere (updateOrdersWhere l oid f) oid g =
      updateOrdersWhere l oid (fun o => g (f o)) := by
  simp only [updateOrdersWhere, List.map_map]
  refine List.map_congr_left fun o _ => ?_
  by_cases h : o.orderId = oid
  · simp [Function.comp, h, hf]
  · simp [Function.comp, h]

theorem updateOrdersWhere_congr (l : List OrderRow) (oid : String)
    (f g : OrderRow → OrderRow) (h : ∀ o ∈ l, o.orderId = oid → f o = g o) :
    updateOrdersWhere l oid f = updateOrdersWhere l oid g := by
  simp only [updateOrdersWhere]
  refine List.map_congr_left fun o ho => ?_
  by_cases h2 : o.orderId = oid
  · simp [h2, h o ho h2]
  · simp [h2]

theorem updateOrdersWhere_eq_self (l : List OrderRow) (oid : String)
    (f : OrderRow → OrderRow) (h : ∀ o ∈ l, o.orderId = oid → f o = o) :
    updateOrdersWhere l oid f = l := by
  simp only [updateOrdersWhere]
  conv_rhs => rw [← List.map_id l]
  refine List.map_congr_left fun o ho => ?_
  by_cases h2 : o.orderId = oid
  · simp [h2, h o ho h2]
  · simp [h2]

theorem findOrder_updateOrdersWhere (l : List OrderRow) (oid q : String)
    (f : OrderRow → OrderRow) (hf : ∀ o, (f o).orderId = o.orderId) :
    findOrder (updateOrdersWhere l oid f) q =
      (findOrder l q).map fun o => if o.orderId = oid then f o else o := by
  have hp : ((fun o : OrderRow => decide (o.orderId = q)) ∘
      fun o => if o.orderId = oid then f o else o) =
      fun o : OrderRow => decide (o.orderId = q) := by
    funext o
    by_cases h : o.orderId = oid <;> simp [Function.comp, h, hf]
  rw [findOrder, updateOrdersWhere, List.find?_map, hp, findOrder]

theorem findOrder_mem {l : List OrderRow} {q : String} {o : OrderRow}
    (h : findOrder l q = some o) : o ∈ l :=
  List.mem_of_find?_eq_some h

theorem findOrder_orderId {l : List OrderRow} {q : String} {o : OrderRow}
    (h : findOrder l q = some o) : o.orderId = q := by
  have := List.find?_some h
  simpa using this

theorem insertOrderOrIgnore_idem (l : List OrderRow) (r : OrderRow) :
    insertOrderOrIgnore (insertOrderOrIgnore l r) r = insertOrderOrIgnore l r := by
  by_cases h : l.any (fun o => o.orderId = r.orderId)
  · simp [insertOrderOrIgnore, h]
  · simp only [insertOrderOrIgnore, h]
    simp

theorem insertActivityOrIgnore_idem (l : List ActivityRow) (r : ActivityRow) :
    insertActivityOrIgnore (insertActivityOrIgnore l r) r = insertActivityOrIgnore l r := by
  by_cases h : r ∈ l
  · simp [insertActivityOrIgnore, h]
  · simp [insertActivityOrIgnore, h]

theorem updateItemsOwner_idem (l : List ItemRow) (c t v : String) :
    updateItemsOwner (updateItemsOwner l c t v) c t v = updateItemsOwner l c t v := by
  simp only [updateItemsOwner, List.map_map]
  refine List.map_congr_left fun it _ => ?_
  by_cases h : it.collectionAddress = c ∧ it.tokenId = t
  · simp [Function.comp, h]
  · simp [Function.comp, h]

/-! ### Projection lemmas for the handlers -/

theorem handleMakeEvent_orders (cfg : Config) (env : Env) (db : DB) (ev : MakeEvent) :
    (handleMakeEvent cfg env db ev).db.orders =
      insertOrderOrIgnore db.orders (makeOrderRow cfg env ev) := by
  unfold handleMakeEvent
  cases env.blockTimeOf ev.blockNumber <;> simp

theorem handleMakeEvent_items (cfg : Config) (env : Env) (db : DB) (ev : MakeEvent) :
    (handleMakeEvent cfg env db ev).db.items = db.items := by
  unfold handleMakeEvent
  cases env.blockTimeOf ev.blockNumber <;> simp

theorem handleMakeEvent_activities (cfg : Config) (env : Env) (db : DB) (ev : MakeEvent)
    (bt : Nat) (h : env.blockTimeOf ev.blockNumber = some bt) :
    (handleMakeEvent cfg env db ev).db.activities =
      insertActivityOrIgnore db.activities (makeActivityRow cfg ev bt) := by
  unfold handleMakeEvent
  rw [h]

theorem handleCancelEvent_orders (cfg : Config) (env : Env) (db : DB) (ev : CancelEvent) :
    (handleCancelEvent cfg env db ev).db.orders =
      updateOrdersWhere db.orders ev.orderId
        (fun o => { o with orderStatus := OrderStatus.cancelled }) := by
  simp only [handleCancelEvent]
  repeat' split
  all_goals rfl

theorem handleCancelEvent_items (cfg : Config) (env : Env) (db : DB) (ev : CancelEvent) :
    (handleCancelEvent cfg env db ev).db.items = db.items := by
  simp only [handleCancelEvent]
  repeat' split
  all_goals rfl

/-! ### C8 — Make-event classification and upsert -/

/-- C8: for every Make event the handler classifies `order_type` as
Listing when `side = Listing`, CollectionBid when `side = Bid` and
`saleKind = FixedForCollection`, ItemBid when `side = Bid` and
`saleKind = FixedForItem`, and inserts the order with insert-or-ignore
on `order_id`, status Active, and `quantity_remaining = size` = the
event's NFT amount. -/
theorem make_event_classifies_and_upserts (cfg : Config) (env : Env) (db : DB)
    (ev : MakeEvent) :
    (makeOrderRow cfg env ev).orderStatus = OrderStatus.active ∧
    (makeOrderRow cfg env ev).quantityRemaining = ev.nftAmount ∧
    (makeOrderRow cfg env ev).size = ev.nftAmount ∧
    (ev.side = ListSide → (makeOrderRow cfg env ev).orderType = OrderType.listing) ∧
    (ev.side = BidSide → ev.saleKind = FixForCollection →
      (makeOrderRow cfg env ev).orderType = OrderType.collectionBid) ∧
    (ev.side = BidSide → ev.saleKind = FixForItem →
      (makeOrderRow cfg env ev).orderType = OrderType.itemBid) ∧
    ((db.orders.any fun o => o.orderId = ev.orderKey) = false →
      (handleMakeEvent cfg env db ev).db.orders = db.orders ++ [makeOrderRow cfg env ev]) ∧
    ((db.orders.any fun o => o.orderId = ev.orderKey) = true →
      (handleMakeEvent cfg env db ev).db.orders = db.orders) := by
  refine ⟨rfl, rfl, rfl, ?_, ?_, ?_, ?_, ?_⟩
  · intro h
    simp [makeOrderRow, makeOrderType, h, ListSide, BidSide]
  · intro h h2
    simp [makeOrderRow, makeOrderType, h, h2, BidSide, FixForCollection]
  · intro h h2
    simp [makeOrderRow, makeOrderType, h, h2, BidSide, FixForCollection, FixForItem]
  · intro h
    rw [handleMakeEvent_orders, insertOrderOrIgnore]
    have h2 : (makeOrderRow cfg env ev).orderId = ev.orderKey := rfl
    rw [h2, h]
    simp
  · intro h
    rw [handleMakeEvent_orders, insertOrderOrIgnore]
    have h2 : (makeOrderRow cfg env ev).orderId = ev.orderKey := rfl
    rw [h2, h]
    simp

/-- C8 witness: a concrete Listing make event on a fresh database is
inserted as an Active listing of size 1; a concrete repeated insert is
ignored. -/
theorem make_event_classifies_and_upserts_witness :
    (makeOrderRow ⟨"0xeth", "0xdex"⟩ ⟨5, fun _ => some 9⟩
        ⟨"0xk1", 0, 1, "0xMak", "7", "0xColl", 1, 100, 500, 3, 42, "0xtx"⟩).orderType =
      OrderType.listing ∧
    (handleMakeEvent ⟨"0xeth", "0xdex"⟩ ⟨5, fun _ => some 9⟩ ⟨[], [], []⟩
        ⟨"0xk1", 0, 1, "0xMak", "7", "0xColl", 1, 100, 500, 3, 42, "0xtx"⟩).db.orders =
      [] ++ [makeOrderRow ⟨"0xeth", "0xdex"⟩ ⟨5, fun _ => some 9⟩
        ⟨"0xk1", 0, 1, "0xMak", "7", "0xColl", 1, 100, 500, 3, 42, "0xtx"⟩] := by
  have h := make_event_classifies_and_upserts ⟨"0xeth", "0xdex"⟩ ⟨5, fun _ => some 9⟩
    ⟨[], [], []⟩ ⟨"0xk1", 0, 1, "0xMak", "7", "0xColl", 1, 100, 500, 3, 42, "0xtx"⟩
  exact ⟨h.2.2.2.1 rfl, h.2.2.2.2.2.2.1 (by decide)⟩

/-! ### C10 — event_time provenance on Make -/

/-- C10: for every Make event the order row's `event_time` is the wall
clock (`time.Now()`) at processing time while the Activity row's
`event_time` is the on-chain block timestamp, so the two can differ. -/
theorem make_event_time_sources (cfg : Config) (env : Env) (db : DB) (ev : MakeEvent)
    (bt : Nat) (hbt : env.blockTimeOf ev.blockNumber = some bt)
    (hfresh : (db.orders.any fun o => o.orderId = ev.orderKey) = false) :
    (handleMakeEvent cfg env db ev).db.orders = db.orders ++ [makeOrderRow cfg env ev] ∧
    (makeOrderRow cfg env ev).eventTime = env.now ∧
    (handleMakeEvent cfg env db ev).db.activities =
      insertActivityOrIgnore db.activities (makeActivityRow cfg ev bt) ∧
    (makeActivityRow cfg ev bt).eventTime = int64OfUInt64 bt ∧
    (env.now ≠ int64OfUInt64 bt →
      (makeOrderRow cfg env ev).eventTime ≠ (makeActivityRow cfg ev bt).eventTime) := by
  refine ⟨?_, rfl, handleMakeEvent_activities cfg env db ev bt hbt, rfl, fun h => h⟩
  rw [handleMakeEvent_orders, insertOrderOrIgnore]
  have h2 : (makeOrderRow cfg env ev).orderId = ev.orderKey := rfl
  rw [h2, hfresh]
  simp

/-- C10 witness: with wall clock 5 and block time 9 the persisted order
and activity rows carry different timestamps. -/
theorem make_event_time_sources_witness :
    (makeOrderRow ⟨"0xeth", "0xdex"⟩ ⟨5, fun _ => some 9⟩
        ⟨"0xk2", 0, 1, "0xMak", "7", "0xColl", 1, 100, 500, 3, 42, "0xtx"⟩).eventTime = 5 ∧
    (makeActivityRow ⟨"0xeth", "0xdex"⟩
        ⟨"0xk2", 0, 1, "0xMak", "7", "0xColl", 1, 100, 500, 3, 42, "0xtx"⟩ 9).eventTime = 9 ∧
    (makeOrderRow ⟨"0xeth", "0xdex"⟩ ⟨5, fun _ => some 9⟩
        ⟨"0xk2", 0, 1, "0xMak", "7", "0xColl", 1, 100, 500, 3, 42, "0xtx"⟩).eventTime ≠
      (makeActivityRow ⟨"0xeth", "0xdex"⟩
        ⟨"0xk2", 0, 1, "0xMak", "7", "0xColl", 1, 100, 500, 3, 42, "0xtx"⟩ 9).eventTime := by
  have h := make_event_time_sources ⟨"0xeth", "0xdex"⟩ ⟨5, fun _ => some 9⟩ ⟨[], [], []⟩
    ⟨"0xk2", 0, 1, "0xMak", "7", "0xColl", 1, 100, 500, 3, 42, "0xtx"⟩ 9 rfl (by decide)
  refine ⟨h.2.1, ?_, ?_⟩
  · rw [h.2.2.2.1]
    decide
  · exact h.2.2.2.2 (by decide)

/-! ### C6 — safe batch-range computation -/

/-- C6: for a head `cur` and cursor `lastSync` (with arithmetic in the
non-wrapping range): if `lastSync > cur − confirmDepth` the iteration
fetches nothing and leaves the cursor in place; otherwise it requests
exactly the inclusive log range
`[lastSync, min (cur − confirmDepth) (lastSync + 10)]`. -/
theorem sync_fetch_range (cfg : Config) (chain : String) (env : SyncEnv) (db : DB)
    (lastSync cur : Nat)
    (hhead : env.head = some cur)
    (hdepth : MultiChainMaxBlockDifference chain ≤ cur)
    (hcur : cur + 12 ≤ U64)
    (hls : lastSync + 11 ≤ U64) :
    (cur - MultiChainMaxBlockDifference chain < lastSync →
      (syncIteration cfg chain env db lastSync).queried = none ∧
      (syncIteration cfg chain env db lastSync).cursor = lastSync ∧
      (syncIteration cfg chain env db lastSync).db = db) ∧
    (lastSync ≤ cur - MultiChainMaxBlockDifference chain →
      (syncIteration cfg chain env db lastSync).queried =
        some (lastSync,
          min (cur - MultiChainMaxBlockDifference chain) (lastSync + SyncBlockPeriod))) := by
  have hU : U64 = 2 ^ 64 := rfl
  have hsafe : (cur + (U64 - MultiChainMaxBlockDifference chain)) % U64 =
      cur - MultiChainMaxBlockDifference chain := by
    rw [hU] at hcur ⊢
    omega
  have hend0 : (lastSync + SyncBlockPeriod) % U64 = lastSync + SyncBlockPeriod := by
    rw [hU] at hls ⊢
    rw [SyncBlockPeriod]
    omega
  constructor
  · intro hlt
    unfold syncIteration
    rw [hhead]
    simp [hsafe, hlt]
  · intro hle
    unfold syncIteration
    rw [hhead]
    simp only [hsafe, hend0]
    rw [if_neg (by omega)]
    have hmin : (if cur - MultiChainMaxBlockDifference chain < lastSync + SyncBlockPeriod
        then cur - MultiChainMaxBlockDifference chain else lastSync + SyncBlockPeriod) =
        min (cur - MultiChainMaxBlockDifference chain) (lastSync + SyncBlockPeriod) := by
      split <;> omega
    cases env.logs <;> cases hp : env.persistOk <;> simp [hmin, hp]

/-- C6 witness: on `base` (confirm depth 2) with head 100 and cursor 90
the requested batch is exactly `[90, 98]`. -/
theorem sync_fetch_range_witness :
    (syncIteration ⟨"0xeth", "0xdex"⟩ "base"
        ⟨some 100, some [], ⟨0, fun _ => none⟩, true⟩ ⟨[], [], []⟩ 90).queried =
      some (90, 98) := by
  have h := (sync_fetch_range ⟨"0xeth", "0xdex"⟩ "base"
      ⟨some 100, some [], ⟨0, fun _ => none⟩, true⟩ ⟨[], [], []⟩ 90 100 rfl
      (by decide) (by norm_num [U64]) (by norm_num [U64])).2 (by decide)
  simpa using h

/-! ### C2 — Cancel on a terminal order -/

/-- C2 counterexample: the Cancel handler has no terminal-status guard —
a concrete order that is already Filled has its `order_status`
overwritten to Cancelled by a Cancel event, so the claim that no field
of a terminal (Filled) order row is mutated is false. -/
theorem cancel_overwrites_filled_cex :
    ((findOrder [(⟨"0xa", "0xc", "1", "0xm", "0xb", "0xe", 1, OrderStatus.filled, OrderType.listing, 10, 0, 1, 0, 0, 0⟩ : OrderRow)] "0xa").map fun o => o.orderStatus) =
      some OrderStatus.filled ∧
    ((findOrder (handleCancelEvent ⟨"0xe", "0xd"⟩ ⟨0, fun _ => some 7⟩
        ⟨[⟨"0xa", "0xc", "1", "0xm", "0xb", "0xe", 1, OrderStatus.filled, OrderType.listing, 10, 0, 1, 0, 0, 0⟩], [], []⟩
        ⟨"0xa", 1, "0xt"⟩).db.orders "0xa").map fun o => o.orderStatus) =
      some OrderStatus.cancelled := by
  decide

/-- C2 (amended): the Cancel handler touches only the `order_status`
column of the rows matching the order id (items are untouched); a
Cancel for an order already Cancelled leaves the orders table
unchanged; but a Filled order is overwritten to Cancelled — there is no
terminal-status guard. -/
theorem cancel_terminal_behavior (cfg : Config) (env : Env) (db : DB) (ev : CancelEvent) :
    (handleCancelEvent cfg env db ev).db.orders =
      updateOrdersWhere db.orders ev.orderId
        (fun o => { o with orderStatus := OrderStatus.cancelled }) ∧
    (handleCancelEvent cfg env db ev).db.items = db.items ∧
    ((∀ o ∈ db.orders, o.orderId = ev.orderId → o.orderStatus = OrderStatus.cancelled) →
      (handleCancelEvent cfg env db ev).db.orders = db.orders) ∧
    (∀ o ∈ db.orders, o.orderId = ev.orderId → o.orderStatus = OrderStatus.filled →
      { o with orderStatus := OrderStatus.cancelled } ∈
        (handleCancelEvent cfg env db ev).db.orders) := by
  refine ⟨handleCancelEvent_orders cfg env db ev, handleCancelEvent_items cfg env db ev,
    ?_, ?_⟩
  · intro h
    rw [handleCancelEvent_orders]
    apply updateOrdersWhere_eq_self
    intro o ho hid
    have hst := h o ho hid
    cases o
    simp only at hst
    subst hst
    rfl
  · intro o ho hid _hfil
    rw [handleCancelEvent_orders]
    have hmem := List.mem_map_of_mem
      (fun o : OrderRow => if o.orderId = ev.orderId then { o with orderStatus := OrderStatus.cancelled } else o) ho
    simpa [updateOrdersWhere, hid] using hmem

/-- C2 witness: a Cancel replayed onto an already-Cancelled concrete
order leaves the orders table exactly as it was. -/
theorem cancel_terminal_behavior_witness :
    (handleCancelEvent ⟨"0xe", "0xd"⟩ ⟨0, fun _ => some 7⟩
        ⟨[⟨"0xa", "0xc", "1", "0xm", ZeroAddress, "0xe", 1, OrderStatus.cancelled, OrderType.listing, 10, 1, 1, 0, 0, 0⟩], [], []⟩
        ⟨"0xa", 1, "0xt"⟩).db.orders =
      [⟨"0xa", "0xc", "1", "0xm", ZeroAddress, "0xe", 1, OrderStatus.cancelled, OrderType.listing, 10, 1, 1, 0, 0, 0⟩] := by
  exact (cancel_terminal_behavior ⟨"0xe", "0xd"⟩ ⟨0, fun _ => some 7⟩
    ⟨[⟨"0xa", "0xc", "1", "0xm", ZeroAddress, "0xe", 1, OrderStatus.cancelled, OrderType.listing, 10, 1, 1, 0, 0, 0⟩], [], []⟩
    ⟨"0xa", 1, "0xt"⟩).2.2.1 (by decide)

/-! ### Normal forms for the Match handler -/

theorem matchTail_orders (cfg : Config) (env : Env) (db : DB) (ev : MatchEvent)
    (owner coll tok fr toA sid : String) :
    (matchTail cfg env db ev owner coll tok fr toA sid).db.orders = db.orders := by
  unfold matchTail
  cases env.blockTimeOf ev.blockNumber <;> rfl

theorem matchTail_items (cfg : Config) (env : Env) (db : DB) (ev : MatchEvent)
    (owner coll tok fr toA sid : String) (bt : Nat)
    (hbt : env.blockTimeOf ev.blockNumber = some bt) :
    (matchTail cfg env db ev owner coll tok fr toA sid).db.items =
      updateItemsOwner db.items coll.toLower tok owner := by
  unfold matchTail
  rw [hbt]

theorem matchTail_activities (cfg : Config) (env : Env) (db : DB) (ev : MatchEvent)
    (owner coll tok fr toA sid : String) (bt : Nat)
    (hbt : env.blockTimeOf ev.blockNumber = some bt) :
    (matchTail cfg env db ev owner coll tok fr toA sid).db.activities =
      insertActivityOrIgnore db.activities (matchActivityRow cfg ev coll tok bt) := by
  unfold matchTail
  rw [hbt]

/-- When the buy-order lookup fails, `handleMatchEvent` stops right after
the sell-order update: only the sell rows are rewritten, nothing else. -/
theorem handleMatchEvent_abort (cfg : Config) (env : Env) (db : DB) (ev : MatchEvent)
    (hmiss : findOrder db.orders (matchBuyOrderId ev) = none) :
    handleMatchEvent cfg env db ev =
      ⟨{ db with orders := updateOrdersWhere db.orders (matchSellOrderId ev) (matchSellUpdate ev) },
        [], []⟩ := by
  by_cases hside : ev.makeOrder.side = BidSide
  · rw [matchBuyOrderId, if_pos hside] at hmiss
    have h1 : findOrder (updateOrdersWhere db.orders ev.takeOrderId
        (fun o => { o with orderStatus := OrderStatus.filled, quantityRemaining := 0, taker := ev.makeOrder.maker })) ev.makeOrderId = none := by
      rw [findOrder_updateOrdersWhere db.orders ev.takeOrderId ev.makeOrderId
        (fun o => { o with orderStatus := OrderStatus.filled, quantityRemaining := 0, taker := ev.makeOrder.maker })
        (fun o => rfl), hmiss]
      rfl
    simp only [handleMatchEvent]
    rw [if_pos hside]
    simp only [h1]
    simp only [matchSellOrderId, hside, if_pos, ite_true, Effects.mk.injEq, and_true]
    congr 1
    congr 1
    funext o
    simp [matchSellUpdate, matchBuyer, hside]
  · rw [matchBuyOrderId, if_neg hside] at hmiss
    have h1 : findOrder (updateOrdersWhere db.orders ev.makeOrderId
        (fun o => { o with orderStatus := OrderStatus.filled, quantityRemaining := 0, taker := ev.takeOrder.maker })) ev.takeOrderId = none := by
      rw [findOrder_updateOrdersWhere db.orders ev.makeOrderId ev.takeOrderId
        (fun o => { o with orderStatus := OrderStatus.filled, quantityRemaining := 0, taker := ev.takeOrder.maker })
        (fun o => rfl), hmiss]
      rfl
    simp only [handleMatchEvent]
    rw [if_neg hside]
    simp only [h1]
    simp only [matchSellOrderId, hside, if_neg, ite_false, Effects.mk.injEq, and_true]
    congr 1
    congr 1
    funext o
    simp [matchSellUpdate, matchBuyer, hside]

/-- When the buy-order lookup succeeds (and the two order ids differ),
`handleMatchEvent` is the sell update, the buy update and the shared
tail, with the handler's branch-dependent locals given by the
`match*` selectors. -/
theorem handleMatchEvent_found (cfg : Config) (env : Env) (db : DB) (ev : MatchEvent)
    (b : OrderRow) (hne : ev.makeOrderId ≠ ev.takeOrderId)
    (hb : findOrder db.orders (matchBuyOrderId ev) = some b) :
    handleMatchEvent cfg env db ev =
      matchTail cfg env
        { db with orders := updateOrdersWhere (updateOrdersWhere db.orders (matchSellOrderId ev) (matchSellUpdate ev)) (matchBuyOrderId ev) (matchBuyUpdate b) }
        ev ((matchBuyer ev).toLower) (matchCollection ev) (matchTokenId ev)
        (matchSeller ev) (matchBuyer ev) (matchSellOrderId ev) := by
  have hbid := findOrder_orderId hb
  by_cases hside : ev.makeOrder.side = BidSide
  · rw [matchBuyOrderId, if_pos hside] at hb hbid
    have h1 : findOrder (updateOrdersWhere db.orders ev.takeOrderId
        (fun o => { o with orderStatus := OrderStatus.filled, quantityRemaining := 0, taker := ev.makeOrder.maker })) ev.makeOrderId = some b := by
      rw [findOrder_updateOrdersWhere db.orders ev.takeOrderId ev.makeOrderId
        (fun o => { o with orderStatus := OrderStatus.filled, quantityRemaining := 0, taker := ev.makeOrder.maker })
        (fun o => rfl), hb]
      simp only [Option.map_some']
      rw [if_neg (by rw [hbid]; exact hne)]
    have hSU : matchSellUpdate ev = fun o : OrderRow =>
        { o with orderStatus := OrderStatus.filled, quantityRemaining := 0, taker := matchBuyer ev } := rfl
    have hBU : matchBuyUpdate b = fun o : OrderRow =>
        if b.quantityRemaining > 1 then { o with quantityRemaining := b.quantityRemaining - 1 }
        else { o with orderStatus := OrderStatus.filled, quantityRemaining := 0 } := rfl
    simp only [handleMatchEvent]
    rw [if_pos hside]
    simp only [h1]
    by_cases hq : b.quantityRemaining > 1 <;>
      simp [matchSellOrderId, matchBuyOrderId, matchBuyer,
        matchSeller, matchCollection, matchTokenId, hside, hq, hSU, hBU]
  · rw [matchBuyOrderId, if_neg hside] at hb hbid
    have h1 : findOrder (updateOrdersWhere db.orders ev.makeOrderId
        (fun o => { o with orderStatus := OrderStatus.filled, quantityRemaining := 0, taker := ev.takeOrder.maker })) ev.takeOrderId = some b := by
      rw [findOrder_updateOrdersWhere db.orders ev.makeOrderId ev.takeOrderId
        (fun o => { o with orderStatus := OrderStatus.filled, quantityRemaining := 0, taker := ev.takeOrder.maker })
        (fun o => rfl), hb]
      simp only [Option.map_some']
      rw [if_neg (by rw [hbid]; exact fun h => hne h.symm)]
    have hSU : matchSellUpdate ev = fun o : OrderRow =>
        { o with orderStatus := OrderStatus.filled, quantityRemaining := 0, taker := matchBuyer ev } := rfl
    have hBU : matchBuyUpdate b = fun o : OrderRow =>
        if b.quantityRemaining > 1 then { o with quantityRemaining := b.quantityRemaining - 1 }
        else { o with orderStatus := OrderStatus.filled, quantityRemaining := 0 } := rfl
    simp only [handleMatchEvent]
    rw [if_neg hside]
    simp only [h1]
    by_cases hq : b.quantityRemaining > 1 <;>
      simp [matchSellOrderId, matchBuyOrderId, matchBuyer,
        matchSeller, matchCollection, matchTokenId, hside, hq, hSU, hBU]

/-! ### C4 — Match referencing an unknown order -/

/-- C4 counterexample: a concrete Match whose buy order is absent does
abort before the item/activity writes, but the sell order has already
been set to Filled — so "no database state is mutated for the failed
event" is false. -/
theorem match_unknown_order_mutates_sell_cex :
    ((findOrder [(⟨"0xs", "0xC", "7", "0xSeller", ZeroAddress, "0xe", 1, OrderStatus.active, OrderType.listing, 100, 1, 1, 0, 0, 0⟩ : OrderRow)] "0xs").map
          fun o => o.orderStatus) = some OrderStatus.active ∧
    ((findOrder (handleMatchEvent ⟨"0xe", "0xd"⟩ ⟨0, fun _ => some 7⟩
        ⟨[⟨"0xs", "0xC", "7", "0xSeller", ZeroAddress, "0xe", 1, OrderStatus.active, OrderType.listing, 100, 1, 1, 0, 0, 0⟩], [], []⟩
        ⟨⟨0, 1, "0xSeller", "7", "0xC", 1, 100, 0, 0⟩,
         ⟨1, 1, "0xBuyer", "7", "0xC", 1, 100, 0, 0⟩, 100, "0xs", "0xb", 1, "0xtx"⟩).db.orders
        "0xs").map fun o => o.orderStatus) = some OrderStatus.filled := by
  decide

/-- C4 (amended): if the buy-order lookup fails the handler aborts this
event before the activity insert, the item-owner update and the trade
event — those are all unchanged — but the sell order has already been
rewritten to Filled with `quantity_remaining = 0` and `taker` = buyer. -/
theorem match_unknown_buy_aborts (cfg : Config) (env : Env) (db : DB) (ev : MatchEvent)
    (hmiss : findOrder db.orders (matchBuyOrderId ev) = none) :
    (handleMatchEvent cfg env db ev).db.orders =
      updateOrdersWhere db.orders (matchSellOrderId ev) (matchSellUpdate ev) ∧
    (handleMatchEvent cfg env db ev).db.items = db.items ∧
    (handleMatchEvent cfg env db ev).db.activities = db.activities ∧
    (handleMatchEvent cfg env db ev).published = [] := by
  rw [handleMatchEvent_abort cfg env db ev hmiss]
  exact ⟨rfl, rfl, rfl, rfl⟩

/-- C4 witness: the amended abort behaviour at a concrete Match whose
buy order "0xb" is absent from the orders table. -/
theorem match_unknown_buy_aborts_witness :
    (handleMatchEvent ⟨"0xe", "0xd"⟩ ⟨0, fun _ => some 7⟩
        ⟨[⟨"0xs", "0xC", "7", "0xSeller", ZeroAddress, "0xe", 1, OrderStatus.active, OrderType.listing, 100, 1, 1, 0, 0, 0⟩], [⟨"0xc", "7", "0xSeller"⟩], []⟩
        ⟨⟨0, 1, "0xSeller", "7", "0xC", 1, 100, 0, 0⟩,
         ⟨1, 1, "0xBuyer", "7", "0xC", 1, 100, 0, 0⟩, 100, "0xs", "0xb", 1, "0xtx"⟩).db.items =
      [⟨"0xc", "7", "0xSeller"⟩] := by
  exact (match_unknown_buy_aborts ⟨"0xe", "0xd"⟩ ⟨0, fun _ => some 7⟩
    ⟨[⟨"0xs", "0xC", "7", "0xSeller", ZeroAddress, "0xe", 1, OrderStatus.active, OrderType.listing, 100, 1, 1, 0, 0, 0⟩], [⟨"0xc", "7", "0xSeller"⟩], []⟩
    ⟨⟨0, 1, "0xSeller", "7", "0xC", 1, 100, 0, 0⟩,
     ⟨1, 1, "0xBuyer", "7", "0xC", 1, 100, 0, 0⟩, 100, "0xs", "0xb", 1, "0xtx"⟩
    (by decide)).2.1

/-! ### C1 — Match-event state transitions -/

/-- C1: for a Match event (distinct order ids, buy order present, block
time available) the sell order is set to Filled with
`quantity_remaining = 0` and `taker` = buyer; the buy order is
decremented by exactly one when `quantity_remaining > 1` (status
untouched), else set to Filled with `quantity_remaining = 0`; and the
Item row for the traded `(collection, token_id)` gets its owner set to
the lower-cased buyer address. -/
theorem match_updates_sell_buy_item (cfg : Config) (env : Env) (db : DB) (ev : MatchEvent)
    (b : OrderRow) (bt : Nat)
    (hne : ev.makeOrderId ≠ ev.takeOrderId)
    (hb : findOrder db.orders (matchBuyOrderId ev) = some b)
    (hbt : env.blockTimeOf ev.blockNumber = some bt) :
    (∀ o ∈ db.orders, o.orderId = matchSellOrderId ev →
      { o with orderStatus := OrderStatus.filled, quantityRemaining := 0, taker := matchBuyer ev } ∈
        (handleMatchEvent cfg env db ev).db.orders) ∧
    (1 < b.quantityRemaining →
      { b with quantityRemaining := b.quantityRemaining - 1 } ∈
        (handleMatchEvent cfg env db ev).db.orders) ∧
    (¬ 1 < b.quantityRemaining →
      { b with orderStatus := OrderStatus.filled, quantityRemaining := 0 } ∈
        (handleMatchEvent cfg env db ev).db.orders) ∧
    (∀ it ∈ db.items, it.collectionAddress = (matchCollection ev).toLower →
      it.tokenId = matchTokenId ev →
      { it with owner := (matchBuyer ev).toLower } ∈
        (handleMatchEvent cfg env db ev).db.items) := by
  have hids : matchSellOrderId ev ≠ matchBuyOrderId ev := by
    unfold matchSellOrderId matchBuyOrderId
    by_cases hside : ev.makeOrder.side = BidSide
    · simp only [hside, if_pos]
      exact fun h => hne h.symm
    · simp only [hside, if_neg, ite_false]
      exact hne
  rw [handleMatchEvent_found cfg env db ev b hne hb]
  have hbuyid := findOrder_orderId hb
  refine ⟨?_, ?_, ?_, ?_⟩
  · intro o ho hoid
    rw [matchTail_orders]
    simp only [updateOrdersWhere]
    have h2 := List.mem_map_of_mem
      (fun o : OrderRow => if o.orderId = matchBuyOrderId ev then matchBuyUpdate b o else o)
      (List.mem_map_of_mem
        (fun o : OrderRow => if o.orderId = matchSellOrderId ev then matchSellUpdate ev o else o) ho)
    simpa [hoid, hids, matchSellUpdate] using h2
  · intro hq
    rw [matchTail_orders]
    simp only [updateOrdersWhere]
    have h2 := List.mem_map_of_mem
      (fun o : OrderRow => if o.orderId = matchBuyOrderId ev then matchBuyUpdate b o else o)
      (List.mem_map_of_mem
        (fun o : OrderRow => if o.orderId = matchSellOrderId ev then matchSellUpdate ev o else o)
        (findOrder_mem hb))
    simpa [hbuyid, Ne.symm hids, matchBuyUpdate, hq] using h2
  · intro hq
    rw [matchTail_orders]
    simp only [updateOrdersWhere]
    have h2 := List.mem_map_of_mem
      (fun o : OrderRow => if o.orderId = matchBuyOrderId ev then matchBuyUpdate b o else o)
      (List.mem_map_of_mem
        (fun o : OrderRow => if o.orderId = matchSellOrderId ev then matchSellUpdate ev o else o)
        (findOrder_mem hb))
    simpa [hbuyid, Ne.symm hids, matchBuyUpdate, hq] using h2
  · intro it hit hc ht
    rw [matchTail_items _ _ _ _ _ _ _ _ _ _ bt hbt]
    simp only [updateItemsOwner]
    have h1 := List.mem_map_of_mem
      (fun it : ItemRow => if it.collectionAddress = (matchCollection ev).toLower ∧
        it.tokenId = matchTokenId ev
        then { it with owner := (matchBuyer ev).toLower } else it) hit
    simpa [hc, ht] using h1

/-- C1 witness: scenario S3 — a collection bid `0xb` of size 3 matched
against listing `0xs`: the sell order becomes Filled with taker =
buyer, the bid keeps status Active with `quantity_remaining = 2`, and
the item owner becomes the lower-cased buyer. -/
theorem match_updates_sell_buy_item_witness :
    (⟨"0xs", "0xC", "7", "0xSeller", "0xBuyer", "0xe", 1, OrderStatus.filled, OrderType.listing, 50, 0, 1, 0, 0, 0⟩ : OrderRow) ∈
      (handleMatchEvent ⟨"0xe", "0xd"⟩ ⟨0, fun _ => some 7⟩
        ⟨[⟨"0xb", "0xC", "7", "0xBuyer", ZeroAddress, "0xe", 1, OrderStatus.active, OrderType.collectionBid, 50, 3, 3, 0, 0, 0⟩,
          ⟨"0xs", "0xC", "7", "0xSeller", ZeroAddress, "0xe", 1, OrderStatus.active, OrderType.listing, 50, 1, 1, 0, 0, 0⟩],
         [⟨"0xc", "7", "0xSeller"⟩], []⟩
        ⟨⟨1, 0, "0xBuyer", "7", "0xC", 1, 50, 0, 0⟩,
         ⟨0, 1, "0xSeller", "7", "0xC", 1, 50, 0, 0⟩, 50, "0xb", "0xs", 1,
         "0xtx"⟩).db.orders ∧
    (⟨"0xb", "0xC", "7", "0xBuyer", ZeroAddress, "0xe", 1, OrderStatus.active, OrderType.collectionBid, 50, 2, 3, 0, 0, 0⟩ : OrderRow) ∈
      (handleMatchEvent ⟨"0xe", "0xd"⟩ ⟨0, fun _ => some 7⟩
        ⟨[⟨"0xb", "0xC", "7", "0xBuyer", ZeroAddress, "0xe", 1, OrderStatus.active, OrderType.collectionBid, 50, 3, 3, 0, 0, 0⟩,
          ⟨"0xs", "0xC", "7", "0xSeller", ZeroAddress, "0xe", 1, OrderStatus.active, OrderType.listing, 50, 1, 1, 0, 0, 0⟩],
         [⟨"0xc", "7", "0xSeller"⟩], []⟩
        ⟨⟨1, 0, "0xBuyer", "7", "0xC", 1, 50, 0, 0⟩,
         ⟨0, 1, "0xSeller", "7", "0xC", 1, 50, 0, 0⟩, 50, "0xb", "0xs", 1,
         "0xtx"⟩).db.orders := by
  have h := match_updates_sell_buy_item ⟨"0xe", "0xd"⟩ ⟨0, fun _ => some 7⟩
    ⟨[⟨"0xb", "0xC", "7", "0xBuyer", ZeroAddress, "0xe", 1, OrderStatus.active, OrderType.collectionBid, 50, 3, 3, 0, 0, 0⟩,
      ⟨"0xs", "0xC", "7", "0xSeller", ZeroAddress, "0xe", 1, OrderStatus.active, OrderType.listing, 50, 1, 1, 0, 0, 0⟩],
     [⟨"0xc", "7", "0xSeller"⟩], []⟩
    ⟨⟨1, 0, "0xBuyer", "7", "0xC", 1, 50, 0, 0⟩,
     ⟨0, 1, "0xSeller", "7", "0xC", 1, 50, 0, 0⟩, 50, "0xb", "0xs", 1, "0xtx"⟩
    ⟨"0xb", "0xC", "7", "0xBuyer", ZeroAddress, "0xe", 1, OrderStatus.active, OrderType.collectionBid, 50, 3, 3, 0, 0, 0⟩ 7
    (by decide) (by decide) rfl
  refine ⟨?_, ?_⟩
  · have hs := h.1
      ⟨"0xs", "0xC", "7", "0xSeller", ZeroAddress, "0xe", 1, OrderStatus.active, OrderType.listing, 50, 1, 1, 0, 0, 0⟩
      (by decide) (by decide)
    simpa [matchBuyer] using hs
  · have hbq := h.2.1 (by decide)
    simpa using hbq

/-! ### C5 — sync loop failure semantics -/

/-- C5 counterexample: (i) a failure to persist the cursor makes the
loop `return` (terminate) instead of sleeping and retrying the range;
(ii) an iteration whose batch contains a Match event that fails an
integrity check (missing buy order, a DB read error) still persists the
advanced cursor `endBlock + 1 = 99`, so the cursor is advanced without
all events having been fully persisted. -/
theorem sync_db_error_cex :
    (syncIteration ⟨"0xe", "0xd"⟩ "base"
        ⟨some 100, some [], ⟨0, fun _ => none⟩, false⟩ ⟨[], [], []⟩ 90).exited = true ∧
    (syncIteration ⟨"0xe", "0xd"⟩ "base"
        ⟨some 100,
         some [LogEvent.matched ⟨⟨0, 1, "0xSeller", "7", "0xC", 1, 100, 0, 0⟩,
           ⟨1, 1, "0xBuyer", "7", "0xC", 1, 100, 0, 0⟩, 100, "0xs", "0xb", 1, "0xtx"⟩],
         ⟨0, fun _ => some 7⟩, true⟩
        ⟨[⟨"0xs", "0xC", "7", "0xSeller", ZeroAddress, "0xe", 1, OrderStatus.active, OrderType.listing, 100, 1, 1, 0, 0, 0⟩], [], []⟩ 90).persisted =
      some 99 ∧
    ((findOrder (syncIteration ⟨"0xe", "0xd"⟩ "base"
        ⟨some 100,
         some [LogEvent.matched ⟨⟨0, 1, "0xSeller", "7", "0xC", 1, 100, 0, 0⟩,
           ⟨1, 1, "0xBuyer", "7", "0xC", 1, 100, 0, 0⟩, 100, "0xs", "0xb", 1, "0xtx"⟩],
         ⟨0, fun _ => some 7⟩, true⟩
        ⟨[⟨"0xs", "0xC", "7", "0xSeller", ZeroAddress, "0xe", 1, OrderStatus.active, OrderType.listing, 100, 1, 1, 0, 0, 0⟩], [], []⟩ 90).db.orders "0xb") =
      none) := by
  refine ⟨by decide, by decide, by decide⟩

/-- C5 (amended): RPC errors (head fetch or log fetch) make the
iteration leave the cursor, the database and the loop state untouched
(it sleeps and retries the same range); per-event DB failures inside
handlers are absorbed per event and the iteration persists
`endBlock + 1` regardless of what the batch's events did to the
database; a failure to persist the cursor terminates the sync loop. -/
theorem sync_error_semantics (cfg : Config) (chain : String) (db : DB) (lastSync : Nat) :
    (∀ logs hEnv pOk,
      syncIteration cfg chain ⟨none, logs, hEnv, pOk⟩ db lastSync =
        ⟨none, db, lastSync, false, none⟩) ∧
    (∀ cur hEnv pOk,
      ¬ ((cur + (U64 - MultiChainMaxBlockDifference chain)) % U64 < lastSync) →
      syncIteration cfg chain ⟨some cur, none, hEnv, pOk⟩ db lastSync =
        ⟨some (lastSync,
            if (cur + (U64 - MultiChainMaxBlockDifference chain)) % U64 <
                (lastSync + SyncBlockPeriod) % U64
            then (cur + (U64 - MultiChainMaxBlockDifference chain)) % U64
            else (lastSync + SyncBlockPeriod) % U64), db, lastSync, false, none⟩) ∧
    (∀ cur logs hEnv,
      ¬ ((cur + (U64 - MultiChainMaxBlockDifference chain)) % U64 < lastSync) →
      (syncIteration cfg chain ⟨some cur, some logs, hEnv, false⟩ db lastSync).exited = true ∧
      (syncIteration cfg chain ⟨some cur, some logs, hEnv, false⟩ db lastSync).persisted =
        none) ∧
    (∀ cur logs hEnv,
      ¬ ((cur + (U64 - MultiChainMaxBlockDifference chain)) % U64 < lastSync) →
      ∃ e, (syncIteration cfg chain ⟨some cur, some logs, hEnv, true⟩ db lastSync).queried =
          some (lastSync, e) ∧
        (syncIteration cfg chain ⟨some cur, some logs, hEnv, true⟩ db lastSync).persisted =
          some ((e + 1) % U64) ∧
        (syncIteration cfg chain ⟨some cur, some logs, hEnv, true⟩ db lastSync).exited =
          false) := by
  refine ⟨fun logs hEnv pOk => rfl, ?_, ?_, ?_⟩
  · intro cur hEnv pOk hge
    simp only [syncIteration]
    rw [if_neg hge]
  · intro cur logs hEnv hge
    simp only [syncIteration]
    rw [if_neg hge]
    exact ⟨rfl, rfl⟩
  · intro cur logs hEnv hge
    simp only [syncIteration]
    rw [if_neg hge]
    exact ⟨_, rfl, rfl, rfl⟩

/-- C5 witness: the amended semantics at concrete inputs — a head-fetch
error leaves everything in place, and a successful persist after a
batch on `base` with head 100 and cursor 90 records `99 = 98 + 1`. -/
theorem sync_error_semantics_witness :
    (syncIteration ⟨"0xe", "0xd"⟩ "base" ⟨none, none, ⟨0, fun _ => none⟩, true⟩
        ⟨[], [], []⟩ 90 = ⟨none, ⟨[], [], []⟩, 90, false, none⟩) ∧
    (∃ e, (syncIteration ⟨"0xe", "0xd"⟩ "base"
          ⟨some 100, some [], ⟨0, fun _ => none⟩, true⟩ ⟨[], [], []⟩ 90).queried =
        some (90, e) ∧
      (syncIteration ⟨"0xe", "0xd"⟩ "base"
          ⟨some 100, some [], ⟨0, fun _ => none⟩, true⟩ ⟨[], [], []⟩ 90).persisted =
        some ((e + 1) % U64) ∧
      (syncIteration ⟨"0xe", "0xd"⟩ "base"
          ⟨some 100, some [], ⟨0, fun _ => none⟩, true⟩ ⟨[], [], []⟩ 90).exited = false) := by
  have h := sync_error_semantics ⟨"0xe", "0xd"⟩ "base" ⟨[], [], []⟩ 90
  exact ⟨h.1 none ⟨0, fun _ => none⟩ true,
    h.2.2.2 100 [] ⟨0, fun _ => none⟩ (by decide)⟩

/-! ### Idempotence machinery for replayed events -/

theorem DB_eq (a b : DB) (h1 : a.orders = b.orders) (h2 : a.items = b.items)
    (h3 : a.activities = b.activities) : a = b := by
  cases a
  cases b
  dsimp at h1 h2 h3
  rw [h1, h2, h3]

theorem handleMakeEvent_activities_none (cfg : Config) (env : Env) (db : DB)
    (ev : MakeEvent) (h : env.blockTimeOf ev.blockNumber = none) :
    (handleMakeEvent cfg env db ev).db.activities = db.activities := by
  unfold handleMakeEvent
  rw [h]

theorem matchTail_db_none (cfg : Config) (env : Env) (db : DB) (ev : MatchEvent)
    (owner coll tok fr toA sid : String)
    (hbt : env.blockTimeOf ev.blockNumber = none) :
    (matchTail cfg env db ev owner coll tok fr toA sid).db = db := by
  unfold matchTail
  rw [hbt]

theorem handleCancelEvent_activities_char (cfg : Config) (env : Env) (db : DB)
    (ev : CancelEvent) :
    (handleCancelEvent cfg env db ev).db.activities =
      match findOrder (updateOrdersWhere db.orders ev.orderId
          (fun o => { o with orderStatus := OrderStatus.cancelled })) ev.orderId with
      | none => db.activities
      | some c =>
        match env.blockTimeOf ev.blockNumber with
        | none => db.activities
        | some bt => insertActivityOrIgnore db.activities (cancelActivityRow cfg ev c bt) := by
  simp only [handleCancelEvent]
  repeat' split
  all_goals simp_all

/-- Replaying a Make event immediately is absorbed: the second
application leaves the database unchanged. -/
theorem handleMakeEvent_idem (cfg : Config) (env : Env) (db : DB) (ev : MakeEvent) :
    (handleMakeEvent cfg env (handleMakeEvent cfg env db ev).db ev).db =
      (handleMakeEvent cfg env db ev).db := by
  apply DB_eq
  · rw [handleMakeEvent_orders, handleMakeEvent_orders]
    exact insertOrderOrIgnore_idem _ _
  · rw [handleMakeEvent_items, handleMakeEvent_items]
  · cases hbt : env.blockTimeOf ev.blockNumber with
    | none =>
      rw [handleMakeEvent_activities_none _ _ _ _ hbt, handleMakeEvent_activities_none _ _ _ _ hbt]
    | some bt =>
      rw [handleMakeEvent_activities _ _ _ _ _ hbt, handleMakeEvent_activities _ _ _ _ _ hbt]
      exact insertActivityOrIgnore_idem _ _

/-- Replaying a Cancel event immediately is absorbed: the second
application leaves the database unchanged. -/
theorem handleCancelEvent_idem (cfg : Config) (env : Env) (db : DB) (ev : CancelEvent) :
    (handleCancelEvent cfg env (handleCancelEvent cfg env db ev).db ev).db =
      (handleCancelEvent cfg env db ev).db := by
  apply DB_eq
  · rw [handleCancelEvent_orders, handleCancelEvent_orders]
    exact updateOrdersWhere_comp _ _ _ _ (fun o => rfl)
  · rw [handleCancelEvent_items, handleCancelEvent_items]
  · cases h : findOrder db.orders ev.orderId with
    | none =>
      have h1 : findOrder (updateOrdersWhere db.orders ev.orderId
          (fun o => { o with orderStatus := OrderStatus.cancelled })) ev.orderId = none := by
        rw [findOrder_updateOrdersWhere db.orders ev.orderId ev.orderId
          (fun o => { o with orderStatus := OrderStatus.cancelled }) (fun o => rfl), h]
        rfl
      have h2 : findOrder (updateOrdersWhere (updateOrdersWhere db.orders ev.orderId
          (fun o => { o with orderStatus := OrderStatus.cancelled })) ev.orderId
          (fun o => { o with orderStatus := OrderStatus.cancelled })) ev.orderId = none := by
        rw [findOrder_updateOrdersWhere (updateOrdersWhere db.orders ev.orderId
            (fun o => { o with orderStatus := OrderStatus.cancelled })) ev.orderId ev.orderId
          (fun o => { o with orderStatus := OrderStatus.cancelled }) (fun o => rfl), h1]
        rfl
      simp only [handleCancelEvent_activities_char, handleCancelEvent_orders, h1, h2]
    | some c =>
      have hc := findOrder_orderId h
      have h1 : findOrder (updateOrdersWhere db.orders ev.orderId
          (fun o => { o with orderStatus := OrderStatus.cancelled })) ev.orderId =
          some { c with orderStatus := OrderStatus.cancelled } := by
        rw [findOrder_updateOrdersWhere db.orders ev.orderId ev.orderId
          (fun o => { o with orderStatus := OrderStatus.cancelled }) (fun o => rfl), h]
        simp only [Option.map_some']
        rw [if_pos hc]
      have h2 : findOrder (updateOrdersWhere (updateOrdersWhere db.orders ev.orderId
          (fun o => { o with orderStatus := OrderStatus.cancelled })) ev.orderId
          (fun o => { o with orderStatus := OrderStatus.cancelled })) ev.orderId =
          some { c with orderStatus := OrderStatus.cancelled } := by
        rw [findOrder_updateOrdersWhere (updateOrdersWhere db.orders ev.orderId
            (fun o => { o with orderStatus := OrderStatus.cancelled })) ev.orderId ev.orderId
          (fun o => { o with orderStatus := OrderStatus.cancelled }) (fun o => rfl), h1]
        simp only [Option.map_some']
        rw [if_pos (show ({ c with orderStatus := OrderStatus.cancelled } :
          OrderRow).orderId = ev.orderId from hc)]
      cases hbt : env.blockTimeOf ev.blockNumber with
      | none =>
        simp only [handleCancelEvent_activities_char, handleCancelEvent_orders, h1, h2, hbt]
      | some bt =>
        simp only [handleCancelEvent_activities_char, handleCancelEvent_orders, h1, h2, hbt]
        exact insertActivityOrIgnore_idem _ _

theorem matchTail_db_char (cfg : Config) (env : Env) (db : DB) (ev : MatchEvent)
    (owner coll tok fr toA sid : String) :
    (matchTail cfg env db ev owner coll tok fr toA sid).db =
      match env.blockTimeOf ev.blockNumber with
      | none => db
      | some bt =>
        { db with
          activities :=
            insertActivityOrIgnore db.activities (matchActivityRow cfg ev coll tok bt)
          items := updateItemsOwner db.items coll.toLower tok owner } := by
  unfold matchTail
  cases h : env.blockTimeOf ev.blockNumber <;> rfl

theorem matchSellBuyId_ne (ev : MatchEvent) (hne : ev.makeOrderId ≠ ev.takeOrderId) :
    matchSellOrderId ev ≠ matchBuyOrderId ev := by
  unfold matchSellOrderId matchBuyOrderId
  by_cases hside : ev.makeOrder.side = BidSide
  · simp only [hside, if_pos]
    exact fun h => hne h.symm
  · simp only [hside, if_neg, ite_false]
    exact hne

/-- Replaying a Match event immediately is absorbed provided the buy
order it touches has at most one unit remaining (so the read-modify-
write decrement path is not taken). -/
theorem handleMatchEvent_idem (cfg : Config) (env : Env) (db : DB) (ev : MatchEvent)
    (hne : ev.makeOrderId ≠ ev.takeOrderId)
    (hq : ∀ b, findOrder db.orders (matchBuyOrderId ev) = some b →
      b.quantityRemaining ≤ 1) :
    (handleMatchEvent cfg env (handleMatchEvent cfg env db ev).db ev).db =
      (handleMatchEvent cfg env db ev).db := by
  have hids := matchSellBuyId_ne ev hne
  cases h : findOrder db.orders (matchBuyOrderId ev) with
  | none =>
    have h2 : findOrder (updateOrdersWhere db.orders (matchSellOrderId ev)
        (matchSellUpdate ev)) (matchBuyOrderId ev) = none := by
      rw [findOrder_updateOrdersWhere db.orders (matchSellOrderId ev) (matchBuyOrderId ev)
        (matchSellUpdate ev) (fun o => rfl), h]
      rfl
    rw [handleMatchEvent_abort cfg env db ev h]
    rw [handleMatchEvent_abort cfg env _ ev h2]
    apply DB_eq
    · exact updateOrdersWhere_comp _ _ _ _ (fun o => rfl)
    · rfl
    · rfl
  | some b =>
    have hqb : ¬ b.quantityRemaining > 1 := by
      have := hq b h
      omega
    have hBpres : ∀ o, (matchBuyUpdate b o).orderId = o.orderId := by
      intro o
      unfold matchBuyUpdate
      split <;> rfl
    have hbuyid := findOrder_orderId h
    have hb1 : findOrder (updateOrdersWhere db.orders (matchSellOrderId ev)
        (matchSellUpdate ev)) (matchBuyOrderId ev) = some b := by
      rw [findOrder_updateOrdersWhere db.orders (matchSellOrderId ev) (matchBuyOrderId ev)
        (matchSellUpdate ev) (fun o => rfl), h]
      simp only [Option.map_some']
      rw [if_neg (by rw [hbuyid]; exact fun heq => hids heq.symm)]
    have hb2 : findOrder (updateOrdersWhere (updateOrdersWhere db.orders
        (matchSellOrderId ev) (matchSellUpdate ev)) (matchBuyOrderId ev)
        (matchBuyUpdate b)) (matchBuyOrderId ev) = some (matchBuyUpdate b b) := by
      rw [findOrder_updateOrdersWhere (updateOrdersWhere db.orders
          (matchSellOrderId ev) (matchSellUpdate ev)) (matchBuyOrderId ev)
        (matchBuyOrderId ev) (matchBuyUpdate b) hBpres, hb1]
      simp only [Option.map_some']
      rw [if_pos hbuyid]
    have hfix : updateOrdersWhere (updateOrdersWhere
        (updateOrdersWhere (updateOrdersWhere db.orders (matchSellOrderId ev)
          (matchSellUpdate ev)) (matchBuyOrderId ev) (matchBuyUpdate b))
        (matchSellOrderId ev) (matchSellUpdate ev)) (matchBuyOrderId ev)
        (matchBuyUpdate (matchBuyUpdate b b)) =
        updateOrdersWhere (updateOrdersWhere db.orders (matchSellOrderId ev)
          (matchSellUpdate ev)) (matchBuyOrderId ev) (matchBuyUpdate b) := by
      simp only [updateOrdersWhere, List.map_map]
      refine List.map_congr_left fun o _ => ?_
      by_cases h1 : o.orderId = matchSellOrderId ev
      · have h2 : ¬ o.orderId = matchBuyOrderId ev := by
          rw [h1]
          exact hids
        simp [Function.comp, h1, h2, hids, Ne.symm hids, matchSellUpdate]
      · by_cases h2 : o.orderId = matchBuyOrderId ev
        · simp [Function.comp, h1, h2, hids, Ne.symm hids, matchSellUpdate, matchBuyUpdate, hqb]
        · simp [Function.comp, h1, h2]
    rw [handleMatchEvent_found cfg env db ev b hne h]
    have hbA : findOrder (matchTail cfg env
        { db with orders := updateOrdersWhere (updateOrdersWhere db.orders (matchSellOrderId ev) (matchSellUpdate ev)) (matchBuyOrderId ev) (matchBuyUpdate b) }
        ev ((matchBuyer ev).toLower) (matchCollection ev)
        (matchTokenId ev) (matchSeller ev) (matchBuyer ev)
        (matchSellOrderId ev)).db.orders (matchBuyOrderId ev) =
        some (matchBuyUpdate b b) := by
      rw [matchTail_orders]
      exact hb2
    rw [handleMatchEvent_found cfg env _ ev (matchBuyUpdate b b) hne hbA]
    simp only [matchTail_db_char]
    cases hbt : env.blockTimeOf ev.blockNumber with
    | none =>
      simp only [hbt]
      exact DB_eq _ _ hfix rfl rfl
    | some bt =>
      simp only [hbt]
      refine DB_eq _ _ ?_ ?_ ?_
      · exact hfix
      · exact updateItemsOwner_idem _ _ _ _
      · exact insertActivityOrIgnore_idem _ _

/-! ### C3 — replay idempotence -/

/-- C3 counterexample: replaying a prefix (one Match event for a bid
with `quantity_remaining = 3`) a second time from the same initial
state decrements the bid again: one pass leaves `quantity_remaining =
2`, two passes leave `1`, so the same prefix processed twice does not
yield the same final database state. -/
theorem replay_decrements_bid_twice_cex :
    ((findOrder (processLogs ⟨"0xe", "0xd"⟩ ⟨0, fun _ => some 7⟩
        ⟨[⟨"0xb", "0xC", "7", "0xBuyer", ZeroAddress, "0xe", 1, OrderStatus.active, OrderType.collectionBid, 50, 3, 3, 0, 0, 0⟩,
          ⟨"0xs", "0xC", "7", "0xSeller", ZeroAddress, "0xe", 1, OrderStatus.active, OrderType.listing, 50, 1, 1, 0, 0, 0⟩], [], []⟩
        [LogEvent.matched ⟨⟨1, 0, "0xBuyer", "7", "0xC", 1, 50, 0, 0⟩,
          ⟨0, 1, "0xSeller", "7", "0xC", 1, 50, 0, 0⟩, 50, "0xb", "0xs", 1,
          "0xtx"⟩]).orders "0xb").map fun o => o.quantityRemaining) = some 2 ∧
    ((findOrder (processLogs ⟨"0xe", "0xd"⟩ ⟨0, fun _ => some 7⟩
        (processLogs ⟨"0xe", "0xd"⟩ ⟨0, fun _ => some 7⟩
          ⟨[⟨"0xb", "0xC", "7", "0xBuyer", ZeroAddress, "0xe", 1, OrderStatus.active, OrderType.collectionBid, 50, 3, 3, 0, 0, 0⟩,
            ⟨"0xs", "0xC", "7", "0xSeller", ZeroAddress, "0xe", 1, OrderStatus.active, OrderType.listing, 50, 1, 1, 0, 0, 0⟩], [], []⟩
          [LogEvent.matched ⟨⟨1, 0, "0xBuyer", "7", "0xC", 1, 50, 0, 0⟩,
            ⟨0, 1, "0xSeller", "7", "0xC", 1, 50, 0, 0⟩, 50, "0xb", "0xs", 1, "0xtx"⟩])
        [LogEvent.matched ⟨⟨1, 0, "0xBuyer", "7", "0xC", 1, 50, 0, 0⟩,
          ⟨0, 1, "0xSeller", "7", "0xC", 1, 50, 0, 0⟩, 50, "0xb", "0xs", 1,
          "0xtx"⟩]).orders "0xb").map fun o => o.quantityRemaining) = some 1 := by
  refine ⟨by decide, by decide⟩

/-- C3 (amended): duplicate delivery is absorbed for Make and Cancel
events (re-applying the handler to its own output is the identity on
the database), and for Match events exactly when the referenced buy
order has at most one unit remaining; a Match whose buy order still has
`quantity_remaining > 1` is decremented again on replay, so replay
idempotence fails only on that read-modify-write path. -/
theorem replay_single_event_absorption (cfg : Config) (env : Env) (db : DB) :
    (∀ ev : MakeEvent,
      (handleMakeEvent cfg env (handleMakeEvent cfg env db ev).db ev).db =
        (handleMakeEvent cfg env db ev).db) ∧
    (∀ ev : CancelEvent,
      (handleCancelEvent cfg env (handleCancelEvent cfg env db ev).db ev).db =
        (handleCancelEvent cfg env db ev).db) ∧
    (∀ ev : MatchEvent, ev.makeOrderId ≠ ev.takeOrderId →
      (∀ b, findOrder db.orders (matchBuyOrderId ev) = some b →
        b.quantityRemaining ≤ 1) →
      (handleMatchEvent cfg env (handleMatchEvent cfg env db ev).db ev).db =
        (handleMatchEvent cfg env db ev).db) :=
  ⟨fun ev => handleMakeEvent_idem cfg env db ev,
   fun ev => handleCancelEvent_idem cfg env db ev,
   fun ev hne hq => handleMatchEvent_idem cfg env db ev hne hq⟩

/-- C3 witness: replaying a concrete Match of a single-unit bid is
absorbed — the second application leaves the database unchanged. -/
theorem replay_single_event_absorption_witness :
    (handleMatchEvent ⟨"0xe", "0xd"⟩ ⟨0, fun _ => some 7⟩
        (handleMatchEvent ⟨"0xe", "0xd"⟩ ⟨0, fun _ => some 7⟩
          ⟨[⟨"0xb", "0xC", "7", "0xBuyer", ZeroAddress, "0xe", 1, OrderStatus.active, OrderType.collectionBid, 50, 1, 1, 0, 0, 0⟩], [], []⟩
          ⟨⟨1, 0, "0xBuyer", "7", "0xC", 1, 50, 0, 0⟩,
           ⟨0, 1, "0xSeller", "7", "0xC", 1, 50, 0, 0⟩, 50, "0xb", "0xs", 1, "0xtx"⟩).db
        ⟨⟨1, 0, "0xBuyer", "7", "0xC", 1, 50, 0, 0⟩,
         ⟨0, 1, "0xSeller", "7", "0xC", 1, 50, 0, 0⟩, 50, "0xb", "0xs", 1, "0xtx"⟩).db =
      (handleMatchEvent ⟨"0xe", "0xd"⟩ ⟨0, fun _ => some 7⟩
        ⟨[⟨"0xb", "0xC", "7", "0xBuyer", ZeroAddress, "0xe", 1, OrderStatus.active, OrderType.collectionBid, 50, 1, 1, 0, 0, 0⟩], [], []⟩
        ⟨⟨1, 0, "0xBuyer", "7", "0xC", 1, 50, 0, 0⟩,
         ⟨0, 1, "0xSeller", "7", "0xC", 1, 50, 0, 0⟩, 50, "0xb", "0xs", 1, "0xtx"⟩).db :=
  (replay_single_event_absorption ⟨"0xe", "0xd"⟩ ⟨0, fun _ => some 7⟩
    ⟨[⟨"0xb", "0xC", "7", "0xBuyer", ZeroAddress, "0xe", 1, OrderStatus.active, OrderType.collectionBid, 50, 1, 1, 0, 0, 0⟩], [], []⟩).2.2
    ⟨⟨1, 0, "0xBuyer", "7", "0xC", 1, 50, 0, 0⟩,
     ⟨0, 1, "0xSeller", "7", "0xC", 1, 50, 0, 0⟩, 50, "0xb", "0xs", 1, "0xtx"⟩
    (by decide) (by decide)

/-! ### C7 — cursor persistence and monotonicity -/

theorem syncIteration_cursor_facts (cfg : Config) (chain : String) (env : SyncEnv)
    (db : DB) (c : Nat) (hg : goodEnv chain env = true) (hc : c + 11 ≤ U64) :
    c ≤ (syncIteration cfg chain env db c).cursor ∧
    (syncIteration cfg chain env db c).cursor + 11 ≤ U64 ∧
    (∀ p, (syncIteration cfg chain env db c).persisted = some p →
      p = (syncIteration cfg chain env db c).cursor ∧ c < p ∧
      ∃ s e2, (syncIteration cfg chain env db c).queried = some (s, e2) ∧ p = e2 + 1) := by
  obtain ⟨hd, lg, he, pk⟩ := env
  cases hd with
  | none => exact ⟨Nat.le_refl c, hc, fun p hp => by simp [syncIteration] at hp⟩
  | some h =>
    have hgood : MultiChainMaxBlockDifference chain ≤ h ∧ h + 12 ≤ U64 := by
      simpa [goodEnv] using hg
    have hU : U64 = 2 ^ 64 := rfl
    have hsafe : (h + (U64 - MultiChainMaxBlockDifference chain)) % U64 =
        h - MultiChainMaxBlockDifference chain := by
      rw [hU] at hgood ⊢
      omega
    by_cases hlt : h - MultiChainMaxBlockDifference chain < c
    · have hiter : syncIteration cfg chain ⟨some h, lg, he, pk⟩ db c =
          ⟨none, db, c, false, none⟩ := by
        simp [syncIteration, hsafe, hlt]
      rw [hiter]
      exact ⟨Nat.le_refl c, hc, fun p hp => by simp at hp⟩
    · have hend0 : (c + SyncBlockPeriod) % U64 = c + SyncBlockPeriod := by
        have hsbp : SyncBlockPeriod = 10 := rfl
        rw [hU] at hc ⊢
        rw [hsbp]
        omega
      have hece : c ≤ (if h - MultiChainMaxBlockDifference chain < c + SyncBlockPeriod
          then h - MultiChainMaxBlockDifference chain else c + SyncBlockPeriod) := by
        split <;> omega
      have hebnd : (if h - MultiChainMaxBlockDifference chain < c + SyncBlockPeriod
          then h - MultiChainMaxBlockDifference chain else c + SyncBlockPeriod) + 12 ≤ U64 := by
        have hg2 := hgood.2
        rw [hU] at hg2 ⊢
        split <;> omega
      have hnc : ((if h - MultiChainMaxBlockDifference chain < c + SyncBlockPeriod
          then h - MultiChainMaxBlockDifference chain else c + SyncBlockPeriod) + 1) % U64 =
          (if h - MultiChainMaxBlockDifference chain < c + SyncBlockPeriod
          then h - MultiChainMaxBlockDifference chain else c + SyncBlockPeriod) + 1 := by
        have hb2 := hebnd
        rw [hU] at hb2 ⊢
        omega
      cases lg with
      | none =>
        have hiter : syncIteration cfg chain ⟨some h, none, he, pk⟩ db c =
            ⟨some (c, if h - MultiChainMaxBlockDifference chain < c + SyncBlockPeriod
              then h - MultiChainMaxBlockDifference chain else c + SyncBlockPeriod),
              db, c, false, none⟩ := by
          simp [syncIteration, hsafe, hend0, hlt]
        rw [hiter]
        exact ⟨Nat.le_refl c, hc, fun p hp => by simp at hp⟩
      | some logs =>
        cases pk with
        | true =>
          have hiter : syncIteration cfg chain ⟨some h, some logs, he, true⟩ db c =
              ⟨some (c, if h - MultiChainMaxBlockDifference chain < c + SyncBlockPeriod
                then h - MultiChainMaxBlockDifference chain else c + SyncBlockPeriod),
                processLogs cfg he db logs,
                (if h - MultiChainMaxBlockDifference chain < c + SyncBlockPeriod
                then h - MultiChainMaxBlockDifference chain else c + SyncBlockPeriod) + 1,
                false,
                some ((if h - MultiChainMaxBlockDifference chain < c + SyncBlockPeriod
                then h - MultiChainMaxBlockDifference chain else c + SyncBlockPeriod) + 1)⟩ := by
            simp [syncIteration, hsafe, hend0, hnc, hlt]
          rw [hiter]
          refine ⟨?_, ?_, ?_⟩
          · dsimp only
            omega
          · dsimp only
            have hb2 := hebnd
            rw [hU] at hb2 ⊢
            omega
          · intro p hp
            dsimp only at hp ⊢
            injection hp with hp2
            refine ⟨hp2.symm, by omega, c,
              (if h - MultiChainMaxBlockDifference chain < c + SyncBlockPeriod
                then h - MultiChainMaxBlockDifference chain else c + SyncBlockPeriod),
              rfl, by omega⟩
        | false =>
          have hiter : syncIteration cfg chain ⟨some h, some logs, he, false⟩ db c =
              ⟨some (c, if h - MultiChainMaxBlockDifference chain < c + SyncBlockPeriod
                then h - MultiChainMaxBlockDifference chain else c + SyncBlockPeriod),
                processLogs cfg he db logs,
                (if h - MultiChainMaxBlockDifference chain < c + SyncBlockPeriod
                then h - MultiChainMaxBlockDifference chain else c + SyncBlockPeriod) + 1,
                true, none⟩ := by
            simp [syncIteration, hsafe, hend0, hnc, hlt]
          rw [hiter]
          refine ⟨?_, ?_, ?_⟩
          · dsimp only
            omega
          · dsimp only
            have hb2 := hebnd
            rw [hU] at hb2 ⊢
            omega
          · intro p hp
            simp at hp

theorem runSync_facts (cfg : Config) (chain : String) :
    ∀ (envs : List SyncEnv) (db : DB) (c : Nat), c + 11 ≤ U64 →
    (∀ e ∈ envs, goodEnv chain e = true) →
    (∀ st ∈ runSync cfg chain db c envs, ∀ p, st.persisted = some p →
      c < p ∧ ∃ s e2, st.queried = some (s, e2) ∧ p = e2 + 1) ∧
    List.Chain' (· ≤ ·) ((runSync cfg chain db c envs).filterMap fun st => st.persisted) ∧
    (∀ q ∈ (runSync cfg chain db c envs).filterMap fun st => st.persisted, c < q) := by
  intro envs
  induction envs with
  | nil =>
    intro db c hc hg
    refine ⟨fun st hst => absurd hst (by simp [runSync]), by simp [runSync], ?_⟩
    intro q hq
    simp [runSync] at hq
  | cons e rest ih =>
    intro db c hc hg
    have hge : goodEnv chain e = true := hg e (List.mem_cons_self e rest)
    have hgr : ∀ x ∈ rest, goodEnv chain x = true :=
      fun x hx => hg x (List.mem_cons_of_mem e hx)
    have hstep := syncIteration_cursor_facts cfg chain e db c hge hc
    rw [runSync]
    by_cases hex : (syncIteration cfg chain e db c).exited
    · rw [if_pos hex]
      refine ⟨?_, ?_, ?_⟩
      · intro st hst p hp
        rw [List.mem_singleton] at hst
        subst hst
        exact ⟨(hstep.2.2 p hp).2.1, (hstep.2.2 p hp).2.2⟩
      · cases hps : (syncIteration cfg chain e db c).persisted <;>
          simp [List.filterMap, hps]
      · intro q hq
        cases hps : (syncIteration cfg chain e db c).persisted with
        | none => simp [List.filterMap, hps] at hq
        | some p =>
          simp [List.filterMap, hps] at hq
          have := (hstep.2.2 p hps).2.1
          omega
    · rw [if_neg hex]
      have hihr := ih (syncIteration cfg chain e db c).db
        (syncIteration cfg chain e db c).cursor hstep.2.1 hgr
      refine ⟨?_, ?_, ?_⟩
      · intro st hst p hp
        rcases List.mem_cons.mp hst with hst | hst
        · subst hst
          exact ⟨(hstep.2.2 p hp).2.1, (hstep.2.2 p hp).2.2⟩
        · have := hihr.1 st hst p hp
          exact ⟨lt_of_le_of_lt hstep.1 this.1, this.2⟩
      · rw [List.filterMap_cons]
        cases hps : (syncIteration cfg chain e db c).persisted with
        | none => exact hihr.2.1
        | some p =>
          rw [List.chain'_cons']
          refine ⟨?_, hihr.2.1⟩
          intro y hy
          have hyL := List.mem_of_mem_head? hy
          have := hihr.2.2 y hyL
          have hpc := (hstep.2.2 p hps).1
          omega
      · intro q hq
        rw [List.filterMap_cons] at hq
        cases hps : (syncIteration cfg chain e db c).persisted with
        | none =>
          rw [hps] at hq
          have := hihr.2.2 q hq
          omega
        | some p =>
          rw [hps] at hq
          rcases List.mem_cons.mp hq with hq | hq
          · subst hq
            exact (hstep.2.2 q hps).2.1
          · have := hihr.2.2 q hq
            have := hstep.1
            omega

/-- C7: after every successfully processed batch the persisted cursor is
`endBlock + 1` for the batch actually queried, and the sequence of
persisted `last_indexed_block` values is monotonically non-decreasing
across the iterations of a run and across a restart that resumes from a
cursor at least as large as everything already persisted. -/
theorem cursor_persist_monotone (cfg : Config) (chain : String) (db1 db2 : DB)
    (c1 c2 : Nat) (envs1 envs2 : List SyncEnv)
    (h1 : c1 + 11 ≤ U64) (hg1 : ∀ e ∈ envs1, goodEnv chain e = true)
    (h2 : c2 + 11 ≤ U64) (hg2 : ∀ e ∈ envs2, goodEnv chain e = true)
    (hresume : ∀ q ∈ (runSync cfg chain db1 c1 envs1).filterMap fun st => st.persisted,
      q ≤ c2) :
    (∀ st ∈ runSync cfg chain db1 c1 envs1, ∀ p, st.persisted = some p →
      ∃ s e2, st.queried = some (s, e2) ∧ p = e2 + 1) ∧
    List.Chain' (· ≤ ·)
      (((runSync cfg chain db1 c1 envs1).filterMap fun st => st.persisted) ++
       ((runSync cfg chain db2 c2 envs2).filterMap fun st => st.persisted)) := by
  have hf1 := runSync_facts cfg chain envs1 db1 c1 h1 hg1
  have hf2 := runSync_facts cfg chain envs2 db2 c2 h2 hg2
  refine ⟨fun st hst p hp => (hf1.1 st hst p hp).2, ?_⟩
  rw [List.chain'_append]
  refine ⟨hf1.2.1, hf2.2.1, ?_⟩
  intro x hx y hy
  have hxm := List.mem_of_mem_getLast? hx
  have hym := List.mem_of_mem_head? hy
  have hxc := hresume x hxm
  have hyc := hf2.2.2 y hym
  omega

/-- C7 witness: a run on `base` from cursor 90 with head 100 persists
`99 = 98 + 1`; a restarted run from cursor 99 with head 120 persists
`110`; the combined persisted sequence `[99, 110]` is non-decreasing. -/
theorem cursor_persist_monotone_witness :
    (∀ st ∈ runSync ⟨"0xe", "0xd"⟩ "base" ⟨[], [], []⟩ 90
        [⟨some 100, some [], ⟨0, fun _ => none⟩, true⟩], ∀ p, st.persisted = some p →
      ∃ s e2, st.queried = some (s, e2) ∧ p = e2 + 1) ∧
    List.Chain' (· ≤ ·)
      (((runSync ⟨"0xe", "0xd"⟩ "base" ⟨[], [], []⟩ 90
          [⟨some 100, some [], ⟨0, fun _ => none⟩, true⟩]).filterMap
            fun st => st.persisted) ++
       ((runSync ⟨"0xe", "0xd"⟩ "base" ⟨[], [], []⟩ 99
          [⟨some 120, some [], ⟨0, fun _ => none⟩, true⟩]).filterMap
            fun st => st.persisted)) := by
  refine cursor_persist_monotone ⟨"0xe", "0xd"⟩ "base" ⟨[], [], []⟩ ⟨[], [], []⟩ 90 99
    [⟨some 100, some [], ⟨0, fun _ => none⟩, true⟩]
    [⟨some 120, some [], ⟨0, fun _ => none⟩, true⟩]
    (by norm_num [U64]) (by decide) (by norm_num [U64]) (by decide) (by decide)

/-! ### C9 — timer-wheel expiry (modelled from the spec) -/

theorem Wheel_eq (a b : Wheel) (h1 : ∀ i, a.slots i = b.slots i)
    (h2 : a.currentIndex = b.currentIndex) (h3 : a.now = b.now) : a = b := by
  cases a
  cases b
  dsimp at h1 h2 h3
  rw [h2, h3]
  congr 1
  funext i
  exact h1 i

theorem tickWheel_insert_empty (ci now : Nat) (hci : ci < WheelSize)
    (o c t m : String) (e : Nat) (hgt : now < e) :
    tickWheel (insertWheel (emptyWheel ci now) o c t m e) =
      insertWheel (emptyWheel ((ci + 1) % WheelSize) (now + 1)) o c t m e := by
  have hW : WheelSize = 3600 := rfl
  rw [hW] at hci
  apply Wheel_eq
  · intro i
    simp only [tickWheel, insertWheel, emptyWheel, hW]
    have hslot : ((ci + 1) % 3600 + (e - (now + 1)) % 3600) % 3600 =
        (ci + (e - now) % 3600) % 3600 := by omega
    have hcyc : (e - (now + 1)) / 3600 =
        (if (e - now) % 3600 = 0 then (e - now) / 3600 - 1 else (e - now) / 3600) := by
      split <;> omega
    rw [hslot, hcyc]
    by_cases hz : (e - now) % 3600 = 0
    · have hsci : (ci + (e - now) % 3600) % 3600 = ci := by omega
      have hne : (e - now) / 3600 ≠ 0 := by omega
      rw [if_pos hz, hsci]
      by_cases hic : i = ci
      · rw [hic]
        rw [if_pos rfl, if_pos rfl, if_pos rfl]
        simp [List.filter_cons, bne_iff_ne, hne]
      · rw [if_neg hic, if_neg hic, if_neg hic]
    · have hne2 : ¬ ci = (ci + (e - now) % 3600) % 3600 := by omega
      rw [if_neg hz, if_neg hne2]
      by_cases hic : i = ci
      · rw [hic]
        rw [if_pos rfl, if_neg hne2]
        rfl
      · rw [if_neg hic]
  · rfl
  · rfl

theorem runTicks_insert_empty (o c t m : String) :
    ∀ (k d ci now : Nat), ci < WheelSize → k ≤ d →
    runTicks (insertWheel (emptyWheel ci now) o c t m (now + d)) k =
      insertWheel (emptyWheel ((ci + k) % WheelSize) (now + k)) o c t m (now + d) := by
  intro k
  induction k with
  | zero =>
    intro d ci now hci _
    rw [runTicks]
    rw [Nat.add_zero, Nat.add_zero, Nat.mod_eq_of_lt hci]
  | succ k ih =>
    intro d ci now hci hk
    rw [runTicks]
    rw [tickWheel_insert_empty ci now hci o c t m (now + d) (by omega)]
    have hd : now + d = (now + 1) + (d - 1) := by omega
    rw [hd]
    rw [ih (d - 1) ((ci + 1) % WheelSize) (now + 1)
      (Nat.mod_lt _ (by rw [show WheelSize = 3600 from rfl]; omega)) (by omega)]
    have hidx : ((ci + 1) % WheelSize + k) % WheelSize = (ci + (k + 1)) % WheelSize := by
      rw [show WheelSize = 3600 from rfl]
      omega
    rw [hidx]
    have htime : now + 1 + k = now + (k + 1) := by omega
    rw [htime]

theorem runTicks_currentIndex (n : Nat) :
    ∀ w : Wheel, w.currentIndex < WheelSize →
    (runTicks w n).currentIndex = (w.currentIndex + n) % WheelSize := by
  induction n with
  | zero =>
    intro w h
    rw [runTicks]
    rw [Nat.add_zero, Nat.mod_eq_of_lt h]
  | succ n ih =>
    intro w h
    rw [runTicks]
    rw [ih (tickWheel w) (Nat.mod_lt _ (by rw [show WheelSize = 3600 from rfl]; omega))]
    show ((w.currentIndex + 1) % WheelSize + n) % WheelSize = _
    rw [show WheelSize = 3600 from rfl]
    omega

theorem filter_range_mod_card (a s : Nat) (hs : s < 3600) :
    ((Finset.range 3600).filter fun j => (a + j) % 3600 = s).card = 1 := by
  rw [Finset.card_eq_one]
  refine ⟨(s + 3600 - a % 3600) % 3600, ?_⟩
  ext j
  simp only [Finset.mem_filter, Finset.mem_range, Finset.mem_singleton]
  constructor
  · rintro ⟨hj, hmod⟩
    omega
  · intro hj
    subst hj
    constructor
    · omega
    · omega

/-- C9: for an order inserted into the timer wheel with
`delta = expire_time − now` (a wheel-insertable order, `now ≤ expire`):
it is placed at slot `(current_index + delta mod 3600) mod 3600` with
`cycle_count = delta / 3600`; its slot is examined exactly once per
3600-tick wheel cycle; it does not fire during the first `delta` ticks
and fires on the tick reached after exactly `delta` ticks, at which
point its cycle count is `0` and the wheel clock equals `expire_time`
(so `now ≥ expire_time` and `now − expire_time = 0 < 2` at fire time). -/
theorem wheel_expiry_spec (ci0 now0 : Nat) (hci : ci0 < WheelSize) (o c t m : String)
    (expire : Nat) (hexp : now0 ≤ expire) :
    ((⟨o, c, t, m, expire, (expire - now0) / WheelSize,
        (ci0 + (expire - now0) % WheelSize) % WheelSize⟩ : WheelNode) ∈
      (insertWheel (emptyWheel ci0 now0) o c t m expire).slots
        ((ci0 + (expire - now0) % WheelSize) % WheelSize)) ∧
    (∀ k, ((Finset.range WheelSize).filter fun j =>
        (runTicks (insertWheel (emptyWheel ci0 now0) o c t m expire) (k + j)).currentIndex =
          (ci0 + (expire - now0) % WheelSize) % WheelSize).card = 1) ∧
    (∀ k < expire - now0,
      tickFired (runTicks (insertWheel (emptyWheel ci0 now0) o c t m expire) k) = []) ∧
    (tickFired (runTicks (insertWheel (emptyWheel ci0 now0) o c t m expire)
        (expire - now0)) =
      [⟨o, c, t, m, expire, 0, (ci0 + (expire - now0) % WheelSize) % WheelSize⟩]) ∧
    ((runTicks (insertWheel (emptyWheel ci0 now0) o c t m expire) (expire - now0)).now =
      expire) := by
  have hW : WheelSize = 3600 := rfl
  have hsW : (ci0 + (expire - now0) % WheelSize) % WheelSize < 3600 := by
    rw [hW]
    omega
  have hciw : (insertWheel (emptyWheel ci0 now0) o c t m expire).currentIndex <
      WheelSize := hci
  have he : expire = now0 + (expire - now0) := by omega
  refine ⟨?_, ?_, ?_, ?_, ?_⟩
  · simp [insertWheel, emptyWheel]
  · intro k
    have hgen : ∀ j ∈ Finset.range WheelSize,
        ((runTicks (insertWheel (emptyWheel ci0 now0) o c t m expire) (k + j)).currentIndex =
          (ci0 + (expire - now0) % WheelSize) % WheelSize) ↔
        (((ci0 + k) + j) % 3600 = (ci0 + (expire - now0) % WheelSize) % WheelSize) := by
      intro j _
      rw [runTicks_currentIndex (k + j) _ hciw]
      have harg : (insertWheel (emptyWheel ci0 now0) o c t m expire).currentIndex + (k + j) =
          (ci0 + k) + j := by
        show ci0 + (k + j) = (ci0 + k) + j
        omega
      rw [harg, hW]
    rw [Finset.filter_congr hgen]
    exact filter_range_mod_card (ci0 + k) _ hsW
  · intro k hk
    have he2 : insertWheel (emptyWheel ci0 now0) o c t m expire =
        insertWheel (emptyWheel ci0 now0) o c t m (now0 + (expire - now0)) := by
      rw [← he]
    rw [he2, runTicks_insert_empty o c t m k (expire - now0) ci0 now0 hci (Nat.le_of_lt hk)]
    simp only [tickFired, insertWheel, emptyWheel, hW]
    have hd2 : now0 + (expire - now0) - (now0 + k) = expire - now0 - k := by omega
    rw [hd2]
    by_cases hzz : (expire - now0 - k) % 3600 = 0
    · have hS : ((ci0 + k) % 3600 + (expire - now0 - k) % 3600) % 3600 =
          (ci0 + k) % 3600 := by omega
      rw [hS, if_pos rfl]
      have hcyc0 : ¬ (expire - now0 - k) / 3600 = 0 := by omega
      simp [List.filter_cons, hcyc0]
    · have hS : ¬ ((ci0 + k) % 3600 =
          ((ci0 + k) % 3600 + (expire - now0 - k) % 3600) % 3600) := by omega
      rw [if_neg hS]
      rfl
  · have he2 : insertWheel (emptyWheel ci0 now0) o c t m expire =
        insertWheel (emptyWheel ci0 now0) o c t m (now0 + (expire - now0)) := by
      rw [← he]
    rw [he2, runTicks_insert_empty o c t m (expire - now0) (expire - now0) ci0 now0 hci
      (Nat.le_refl _)]
    simp only [tickFired, insertWheel, emptyWheel, hW]
    have hz0 : now0 + (expire - now0) - (now0 + (expire - now0)) = 0 := by omega
    rw [hz0]
    have hS : ((ci0 + (expire - now0)) % 3600 + 0 % 3600) % 3600 =
        (ci0 + (expire - now0)) % 3600 := by omega
    rw [hS, if_pos rfl]
    have hfil : List.filter (fun n : WheelNode => n.cycleCount == 0)
        [⟨o, c, t, m, now0 + (expire - now0), 0 / 3600,
          (ci0 + (expire - now0)) % 3600⟩] =
        [⟨o, c, t, m, now0 + (expire - now0), 0 / 3600,
          (ci0 + (expire - now0)) % 3600⟩] := by
      simp [List.filter_cons]
    rw [hfil, Nat.zero_div]
    have h1 : now0 + (expire - now0) = expire := by omega
    have h2 : (ci0 + (expire - now0)) % 3600 = (ci0 + (expire - now0) % 3600) % 3600 := by
      omega
    rw [h1, h2]
  · have he2 : insertWheel (emptyWheel ci0 now0) o c t m expire =
        insertWheel (emptyWheel ci0 now0) o c t m (now0 + (expire - now0)) := by
      rw [← he]
    rw [he2, runTicks_insert_empty o c t m (expire - now0) (expire - now0) ci0 now0 hci
      (Nat.le_refl _)]
    show now0 + (expire - now0) = expire
    omega

/-- C9 witness: inserting at index 0, clock 100, expiry 105 (`delta = 5`)
— the node lands in slot 5 with cycle count 0, is untouched at tick 3,
and fires on the tick after 5 ticks with the clock at exactly 105. -/
theorem wheel_expiry_spec_witness :
    ((⟨"0xa", "0xC", "7", "0xm", 105, 0, 5⟩ : WheelNode) ∈
      (insertWheel (emptyWheel 0 100) "0xa" "0xC" "7" "0xm" 105).slots 5) ∧
    (tickFired (runTicks (insertWheel (emptyWheel 0 100) "0xa" "0xC" "7" "0xm" 105) 3) =
      []) ∧
    (tickFired (runTicks (insertWheel (emptyWheel 0 100) "0xa" "0xC" "7" "0xm" 105) 5) =
      [⟨"0xa", "0xC", "7", "0xm", 105, 0, 5⟩]) ∧
    ((runTicks (insertWheel (emptyWheel 0 100) "0xa" "0xC" "7" "0xm" 105) 5).now = 105) := by
  have h := wheel_expiry_spec 0 100 (by decide) "0xa" "0xC" "7" "0xm" 105 (by decide)
  exact ⟨h.1, h.2.2.1 3 (by decide), h.2.2.2.1, h.2.2.2.2⟩

end EasySwap
